import Mathlib

/-!
Verification development for the IPFIX collector core (src/bin/ipfix.c).

The definitions below are shallow embeddings of the C source.  Each definition
carries a comment pointing at the function and the lines of src/bin/ipfix.c it
is translated from.  Machine integers are modelled as Nat with explicit
reductions modulo 2^32 / 2^64 where the C arithmetic can wrap.
-/

set_option maxRecDepth 10000
set_option maxHeartbeats 2000000

namespace Ipfix

/-- 2^32, the modulus of C uint32_t arithmetic. -/
def U32 : Nat := 4294967296

/-- 2^64, the modulus of C uint64_t arithmetic. -/
def U64 : Nat := 18446744073709551616

/-! ## Scratch frame of a translation table

The per-record scratch variables of `input_translation_t` (ipfix.c lines
139-152): flow_start, flow_end, duration, SysUpTime, HasTimeMili,
icmpTypeCode, packets, bytes, out_packets, out_bytes. -/

structure Scratch where
  flow_start : Nat := 0
  flow_end : Nat := 0
  duration : Nat := 0
  SysUpTime : Nat := 0
  HasTimeMili : Bool := false
  icmpTypeCode : Nat := 0
  packets : Nat := 0
  bytes : Nat := 0
  out_packets : Nat := 0
  out_bytes : Nat := 0
deriving DecidableEq, Repr, Inhabited

/-- Per-record scratch initialisation performed by `Process_ipfix_data`
(ipfix.c lines 1754-1760).  The C code assigns exactly these seven fields:
flow_start, flow_end, SysUpTime, packets, bytes, out_packets, out_bytes. -/
def recordScratchInit (t : Scratch) : Scratch :=
  { t with
    flow_start := 0
    flow_end := 0
    SysUpTime := 0
    packets := 0
    bytes := 0
    out_packets := 0
    out_bytes := 0 }

/-! ## Time reconstruction after the sequencer run -/

/-- The four time fields of the output common record: first/last are uint32
epoch seconds, msec_first/msec_last the millisecond remainders. -/
structure TimeFields where
  first : Nat
  msec_first : Nat
  last : Nat
  msec_last : Nat
deriving DecidableEq, Repr

/-- SysUpTime / duration adjustment of the scratch times, `Process_ipfix_data`
lines 1966-1976: a per-record SysUpTime (with HasTimeMili) takes precedence
over the exporter option SysUpTime; a missing flow_end is filled from
flow_start + duration.  All sums are uint64. -/
def timeAdjust (exporterSysUp : Nat) (t : Scratch) : Scratch :=
  let t1 :=
    if t.SysUpTime ≠ 0 ∧ t.HasTimeMili = true then
      { t with flow_start := (t.flow_start + t.SysUpTime) % U64
               flow_end := (t.flow_end + t.SysUpTime) % U64 }
    else if exporterSysUp ≠ 0 ∧ t.HasTimeMili = true then
      { t with flow_start := (t.flow_start + exporterSysUp) % U64
               flow_end := (t.flow_end + exporterSysUp) % U64 }
    else t
  if t1.flow_start ≠ 0 ∧ t1.duration ≠ 0 ∧ t1.flow_end = 0 then
    { t1 with flow_end := (t1.flow_start + t1.duration) % U64 }
  else t1

/-- Split of the millisecond scratch times into the uint32 / uint16 record
fields, `Process_ipfix_data` lines 1979-1983.  first/last are uint32 record
fields, so the quotient is truncated mod 2^32. -/
def timeSplit (t : Scratch) : TimeFields :=
  { first := t.flow_start / 1000 % U32
    msec_first := t.flow_start % 1000
    last := t.flow_end / 1000 % U32
    msec_last := t.flow_end % 1000 }

/-- Sanity gate of `Process_ipfix_data` lines 1989-1997: the record times are
zeroed when first < 820454400, or when last is nonzero and < 820454400. -/
def timeGate (f : TimeFields) : TimeFields :=
  if f.first < 820454400 ∨ (f.last ≠ 0 ∧ f.last < 820454400) then
    { first := 0, msec_first := 0, last := 0, msec_last := 0 }
  else f

/-- The full time post-processing of one data record (adjust, split, gate). -/
def finishTimes (exporterSysUp : Nat) (t : Scratch) : TimeFields :=
  timeGate (timeSplit (timeAdjust exporterSysUp t))

/-! ## ICMP destination port rewrite -/

/-- Port rewrite of `Process_ipfix_data` lines 1949-1956: when the record
protocol is ICMP (1) or ICMPv6 (58) and the saved icmpTypeCode is nonzero,
srcport becomes 0 and dstport the saved value (dstport is uint16, the
uint32 scratch value is truncated).  Returns (srcport, dstport). -/
def icmpPortFix (prot srcport dstport icmpTypeCode : Nat) : Nat × Nat :=
  if prot = 1 ∨ prot = 58 then
    if icmpTypeCode ≠ 0 then (0, icmpTypeCode % 65536)
    else (srcport, dstport)
  else (srcport, dstport)

/-! ## Sampling rate selection -/

/-- One sampler record of an exporter (`sampler_t` info fields relevant to
rate selection; the header and exporter_sysid fields are omitted). -/
structure SamplerRec where
  id : Int
  mode : Nat
  interval : Nat
deriving DecidableEq, Repr

/-- Walk of the exporter sampler chain for the standard sampler,
`Process_ipfix_data` lines 1701-1702: the first sampler with id = -1. -/
def findStdSampler (samplers : List SamplerRec) : Option SamplerRec :=
  samplers.find? (fun s => s.id == -1)

/-- Sampling-rate selection of `Process_ipfix_data` lines 1699-1715: the
interval of the standard (id = -1) sampler if present, else the configured
default; a nonzero overwrite_sampling overrides the result. -/
def selectSamplingRate (samplers : List SamplerRec)
    (default_sampling overwrite_sampling : Nat) : Nat :=
  let r :=
    match findStdSampler samplers with
    | some s => s.interval
    | none => default_sampling
  if overwrite_sampling > 0 then overwrite_sampling else r

/-- FLAG_SAMPLED update of `Process_ipfix_data` line 1717: the sampled flag is
asserted (never cleared) when the active rate differs from 1. -/
def applySampledFlag (sampled : Bool) (rate : Nat) : Bool :=
  if rate ≠ 1 then true else sampled

/-! ## Template withdraw -/

/-- A translation table entry, reduced to its id (the claim about withdraw
depends only on which entries stay on the exporter's linked list). -/
structure TransTable where
  id : Nat
deriving DecidableEq, Repr

/-- Proper unlink used when the table to delete has a parent node:
`remove_translation_table` line 595 (`parent->next = table->next`). -/
def removeTableTail : List TransTable → Nat → List TransTable
  | [], _ => []
  | t :: rest, i => if t.id = i then rest else t :: removeTableTail rest i

/-- `remove_translation_table` (ipfix.c lines 571-606) on the exporter's
template list.  When the matching table is the head of the list (parent ==
NULL) the C code executes `exporter->input_translation_table = NULL`
(line 598), dropping the entire list; otherwise the single node is
unlinked; an id that is not found leaves the list unchanged. -/
def remove_translation_table (l : List TransTable) (i : Nat) : List TransTable :=
  match l with
  | [] => []
  | t :: rest => if t.id = i then [] else t :: removeTableTail rest i

/-- Withdraw handling of `Process_ipfix_template_withdraw` lines 1494-1500:
id 2 (the reserved template-set id) removes all templates and resets the
extension-map registry (second component true); any other id goes through
`remove_translation_table`.  Returns (new template list, registry reset?). -/
def withdrawTemplate (l : List TransTable) (i : Nat) : List TransTable × Bool :=
  if i = 2 then ([], true) else (remove_translation_table l i, false)

/-! ## Option-table lookup and data-flowset dispatch -/

/-- `HasOptionTable` (ipfix.c lines 402-414): true when the exporter's
SysUpOption length is nonzero (regardless of the table id), otherwise when
some sampler option descriptor has the requested table id. -/
def HasOptionTable (sysUpOptionLength : Nat) (optTableIDs : List Nat)
    (tableID : Nat) : Bool :=
  if sysUpOptionLength ≠ 0 then true
  else (optTableIDs.find? (fun t => t == tableID)).isSome

/-- Outcome of dispatching one flowset with id ≥ 256. -/
inductive FlowAction where
  | processData
  | optionData
  | dropSet
deriving DecidableEq, Repr

/-- Data-flowset dispatch of `Process_IPFIX` lines 2298-2309: a compiled
template runs the sequencer; otherwise `HasOptionTable` decides between
option-data processing and dropping the flowset. -/
def dispatchDataFlowset (templateIds : List Nat) (sysUpOptionLength : Nat)
    (optTableIDs : List Nat) (flowsetId : Nat) : FlowAction :=
  if templateIds.contains flowsetId then .processData
  else if HasOptionTable sysUpOptionLength optTableIDs flowsetId then .optionData
  else .dropSet

/-! ## Sampler insertion -/

/-- `InsertSampler` (ipfix.c lines 1156-1232), modelled as a pure function
from the sampler chain to the new chain together with the list of sampler
records handed to `FlushInfoSampler`, in call order.  An existing sampler
with the same id is updated only if mode or interval changed, and the flush
happens before the update, so the flushed record carries the old values
(lines 1190-1194); an unchanged sampler causes no flush; an unknown id is
appended at the end of the chain and flushed with its new values. -/
def InsertSampler : List SamplerRec → Int → Nat → Nat →
    List SamplerRec × List SamplerRec
  | [], i, m, v => ([⟨i, m, v⟩], [⟨i, m, v⟩])
  | s :: rest, i, m, v =>
    if s.id = i then
      if m ≠ s.mode ∨ v ≠ s.interval then
        (⟨s.id, m, v⟩ :: rest, [s])
      else (s :: rest, [])
    else
      let r := InsertSampler rest i m v
      (s :: r.1, r.2)

/-- First sampler of the chain with a given id (the chain walk of
`InsertSampler`, lines 1182-1229). -/
def lookupSampler : List SamplerRec → Int → Option SamplerRec
  | [], _ => none
  | s :: rest, i => if s.id = i then some s else lookupSampler rest i

/-! ## The sequencer program and its VM -/

/-- The opcode set of `enum opStates` (ipfix.c lines 79-108). -/
inductive OpId where
  | nop
  | dyn_skip
  | move8
  | move16
  | move32
  | move40
  | move48
  | move56
  | move64
  | move128
  | move32_sampling
  | move48_sampling
  | move64_sampling
  | move_mac
  | move_mpls
  | move_flags
  | Time64Mili
  | TimeDeltaMicro
  | TimeMili
  | SystemInitTime
  | TimeUnix
  | Time64MiliDur
  | saveICMP
  | zero8
  | zero16
  | zero32
  | zero64
  | zero128
deriving DecidableEq, Repr, Inhabited

/-- The scratch-frame slot a step's `stack` pointer refers to (the C code
passes the address of one of the scratch fields, or NULL). -/
inductive StackSlot where
  | noSlot
  | slotFlowStart
  | slotFlowEnd
  | slotDuration
  | slotSysUpTime
  | slotIcmpTypeCode
  | slotPackets
  | slotBytes
  | slotOutPackets
  | slotOutBytes
deriving DecidableEq, Repr, Inhabited

/-- One entry of `sequence_map_t` (ipfix.c lines 110-123). -/
structure SeqStep where
  id : OpId
  skip_count : Nat
  type : Nat
  input_length : Nat
  output_offset : Nat
  stack : StackSlot
deriving DecidableEq, Repr, Inhabited

/-- Big-endian read of n bytes (the Get_valXX helpers of inline.c): byte at
`off` is the most significant. -/
def getValBE (inb : Nat → Nat) (off : Nat) : Nat → Nat
  | 0 => 0
  | n + 1 => getValBE inb off n * 256 + inb (off + n)

/-- Number of input bytes a step reads at input offset `off`
(`Process_ipfix_data` switch, lines 1774-1945).  All reads are from the
contiguous range starting at `off`; `dyn_skip` reads the length byte and,
when it is 255, two more length bytes. -/
def stepReadCount (inb : Nat → Nat) (off : Nat) : OpId → Nat
  | .nop => 0
  | .dyn_skip => if inb off < 255 then 1 else 3
  | .move8 => 1
  | .move16 => 2
  | .move32 => 4
  | .move40 => 5
  | .move48 => 6
  | .move56 => 7
  | .move64 => 8
  | .move128 => 16
  | .move32_sampling => 4
  | .move48_sampling => 6
  | .move64_sampling => 8
  | .move_mac => 6
  | .move_mpls => 3
  | .move_flags => 2
  | .Time64Mili => 8
  | .TimeDeltaMicro => 4
  | .TimeMili => 4
  | .SystemInitTime => 8
  | .TimeUnix => 4
  | .Time64MiliDur => 4
  | .saveICMP => 2
  | .zero8 => 0
  | .zero16 => 0
  | .zero32 => 0
  | .zero64 => 0
  | .zero128 => 0

/-- The list of input byte indices a step reads at offset `off`. -/
def stepReads (inb : Nat → Nat) (off : Nat) (op : OpId) : List Nat :=
  (List.range (stepReadCount inb off op)).map (off + ·)

/-- The internal input advance of the `dyn_skip` case (lines 1777-1785):
skip+1 for a short length byte, skip+3 for the 255-escaped uint16 length. -/
def dynInner (inb : Nat → Nat) (off : Nat) : Nat :=
  if inb off < 255 then inb off + 1
  else getValBE inb (off + 1) 2 + 3

/-- Total input advance of one step: the dyn_skip internal advance plus the
unconditional `input_offset += input_length + skip_count` of line 1946. -/
def stepAdvance (inb : Nat → Nat) (off : Nat) (s : SeqStep) : Nat :=
  (if s.id = OpId.dyn_skip then dynInner inb off else 0) +
    s.input_length + s.skip_count

/-- Write a 64-bit value to the scratch slot referenced by a step's stack
pointer (`*(uint64_t *)stack = v` and the uint32 writes to the uint32
scratch fields). -/
def writeSlot (t : Scratch) (sl : StackSlot) (v : Nat) : Scratch :=
  match sl with
  | .noSlot => t
  | .slotFlowStart => { t with flow_start := v }
  | .slotFlowEnd => { t with flow_end := v }
  | .slotDuration => { t with duration := v }
  | .slotSysUpTime => { t with SysUpTime := v }
  | .slotIcmpTypeCode => { t with icmpTypeCode := v }
  | .slotPackets => { t with packets := v }
  | .slotBytes => { t with bytes := v }
  | .slotOutPackets => { t with out_packets := v }
  | .slotOutBytes => { t with out_bytes := v }

/-- Read the scratch slot (used by the TimeMili low-word write). -/
def readSlot (t : Scratch) (sl : StackSlot) : Nat :=
  match sl with
  | .noSlot => 0
  | .slotFlowStart => t.flow_start
  | .slotFlowEnd => t.flow_end
  | .slotDuration => t.duration
  | .slotSysUpTime => t.SysUpTime
  | .slotIcmpTypeCode => t.icmpTypeCode
  | .slotPackets => t.packets
  | .slotBytes => t.bytes
  | .slotOutPackets => t.out_packets
  | .slotOutBytes => t.out_bytes

/-- Scratch-frame effect of one step (`Process_ipfix_data` switch, lines
1774-1945).  Only the opcodes whose C case writes through the stack pointer
or sets HasTimeMili change the scratch; the sampling moves store the
rate-multiplied counter (uint64), TimeUnix scales seconds to ms,
TimeDeltaMicro subtracts from 10^6 * ExportTime in wrapping uint64
arithmetic, TimeMili writes only the low 32 bits of the slot
(`*(uint32_t *)stack = ...`) and raises HasTimeMili, saveICMP stores the
16-bit type/code. -/
def stepScratch (inb : Nat → Nat) (ExportTime rate off : Nat) (s : SeqStep)
    (t : Scratch) : Scratch :=
  match s.id with
  | .move32_sampling => writeSlot t s.stack (getValBE inb off 4 * rate % U64)
  | .move48_sampling => writeSlot t s.stack (getValBE inb off 6 * rate % U64)
  | .move64_sampling => writeSlot t s.stack (getValBE inb off 8 * rate % U64)
  | .Time64Mili => writeSlot t s.stack (getValBE inb off 8)
  | .Time64MiliDur => writeSlot t s.stack (getValBE inb off 4)
  | .TimeUnix => writeSlot t s.stack (getValBE inb off 4 * 1000 % U64)
  | .TimeDeltaMicro =>
      writeSlot t s.stack
        ((1000000 * ExportTime % U64 + (U64 - getValBE inb off 4)) % U64 / 1000)
  | .SystemInitTime => writeSlot t s.stack (getValBE inb off 8)
  | .TimeMili =>
      let old := readSlot t s.stack
      { writeSlot t s.stack (old / U32 * U32 + getValBE inb off 4) with
          HasTimeMili := true }
  | .saveICMP => writeSlot t s.stack (getValBE inb off 2)
  | _ => t

/-- Result of executing a sequencer program on one data record. -/
structure RunState where
  endOff : Nat
  reads : List Nat
  stepsRun : Nat
  aborted : Bool
  scr : Scratch
deriving Repr

/-- Execution of the sequencer loop of `Process_ipfix_data` (lines
1762-1947) on one record.  Before every step the accumulated input offset
is compared with size_left (`if (input_offset > size_left) return`, lines
1767-1772); when the check fires the function returns, abandoning the rest
of the program (aborted = true).  A step whose check passes executes fully,
reading `stepReads` and advancing by `stepAdvance`. -/
def runSteps (inb : Nat → Nat) (ExportTime rate sizeLeft : Nat) :
    List SeqStep → Nat → Scratch → RunState
  | [], off, t => ⟨off, [], 0, false, t⟩
  | s :: rest, off, t =>
    if off > sizeLeft then ⟨off, [], 0, true, t⟩
    else
      let rds := stepReads inb off s.id
      let t1 := stepScratch inb ExportTime rate off s t
      let off1 := off + stepAdvance inb off s
      let r := runSteps inb ExportTime rate sizeLeft rest off1 t1
      ⟨r.endOff, rds ++ r.reads, r.stepsRun + 1, r.aborted, r.scr⟩

/-- Outcome of the record loop over one data flowset. -/
structure FlowsetRun where
  recordsEmitted : Nat
  truncated : Bool
deriving DecidableEq, Repr

/-- The `while (size_left)` record loop of `Process_ipfix_data` (lines
1719-2094), restricted to the input-side effects: trailing bytes < 4 are
padding; an in-loop overrun abandons the record and the remainder of the
flowset without emitting the record; the post-loop overrun check (lines
2073-2077) fires after the record was already committed.  `fuel` bounds the
number of iterations (the C loop has no such bound; a program that consumes
no input would loop forever there). -/
def processRecords (inb : Nat → Nat) (ExportTime rate : Nat)
    (steps : List SeqStep) : Nat → Nat → Nat → Scratch → FlowsetRun
  | 0, _, _, _ => ⟨0, false⟩
  | fuel + 1, base, sizeLeft, t =>
    if sizeLeft = 0 then ⟨0, false⟩
    else if sizeLeft < 4 then ⟨0, false⟩
    else
      let r := runSteps (fun k => inb (base + k)) ExportTime rate sizeLeft
        steps 0 (recordScratchInit t)
      if r.aborted then ⟨0, true⟩
      else if r.endOff > sizeLeft then ⟨1, true⟩
      else
        let rest := processRecords inb ExportTime rate steps fuel
          (base + r.endOff) (sizeLeft - r.endOff) r.scr
        ⟨rest.recordsEmitted + 1, rest.truncated⟩

/-! ## IPFIX information-element ids

Numeric element ids as used by ipfix.h (the header is not part of src/;
the values are the IANA IPFIX registry assignments the header mirrors). -/

def IPFIX_octetDeltaCount : Nat := 1
def IPFIX_packetDeltaCount : Nat := 2
def IPFIX_protocolIdentifier : Nat := 4
def IPFIX_ipClassOfService : Nat := 5
def IPFIX_tcpControlBits : Nat := 6
def IPFIX_SourceTransportPort : Nat := 7
def IPFIX_SourceIPv4Address : Nat := 8
def IPFIX_SourceIPv4PrefixLength : Nat := 9
def IPFIX_ingressInterface : Nat := 10
def IPFIX_DestinationTransportPort : Nat := 11
def IPFIX_DestinationIPv4Address : Nat := 12
def IPFIX_DestinationIPv4PrefixLength : Nat := 13
def IPFIX_egressInterface : Nat := 14
def IPFIX_ipNextHopIPv4Address : Nat := 15
def IPFIX_bgpSourceAsNumber : Nat := 16
def IPFIX_bgpDestinationAsNumber : Nat := 17
def IPFIX_bgpNextHopIPv4Address : Nat := 18
def IPFIX_flowEndSysUpTime : Nat := 21
def IPFIX_flowStartSysUpTime : Nat := 22
def IPFIX_postOctetDeltaCount : Nat := 23
def IPFIX_postPacketDeltaCount : Nat := 24
def IPFIX_SourceIPv6Address : Nat := 27
def IPFIX_DestinationIPv6Address : Nat := 28
def IPFIX_SourceIPv6PrefixLength : Nat := 29
def IPFIX_DestinationIPv6PrefixLength : Nat := 30
def IPFIX_icmpTypeCodeIPv4 : Nat := 32
def IPFIX_postIpClassOfService : Nat := 55
def IPFIX_SourceMacAddress : Nat := 56
def IPFIX_postDestinationMacAddress : Nat := 57
def IPFIX_vlanId : Nat := 58
def IPFIX_postVlanId : Nat := 59
def IPFIX_flowDirection : Nat := 61
def IPFIX_ipNextHopIPv6Address : Nat := 62
def IPFIX_bgpNextHopIPv6Address : Nat := 63
def IPFIX_mplsTopLabelStackSection : Nat := 70
def IPFIX_mplsLabelStackSection2 : Nat := 71
def IPFIX_mplsLabelStackSection3 : Nat := 72
def IPFIX_mplsLabelStackSection4 : Nat := 73
def IPFIX_mplsLabelStackSection5 : Nat := 74
def IPFIX_mplsLabelStackSection6 : Nat := 75
def IPFIX_mplsLabelStackSection7 : Nat := 76
def IPFIX_mplsLabelStackSection8 : Nat := 77
def IPFIX_mplsLabelStackSection9 : Nat := 78
def IPFIX_mplsLabelStackSection10 : Nat := 79
def IPFIX_DestinationMacAddress : Nat := 80
def IPFIX_postSourceMacAddress : Nat := 81
def IPFIX_octetTotalCount : Nat := 85
def IPFIX_packetTotalCount : Nat := 86
def IPFIX_forwardingStatus : Nat := 89
def IPFIX_flowEndReason : Nat := 136
def IPFIX_icmpTypeCodeIPv6 : Nat := 139
def IPFIX_flowStartSeconds : Nat := 150
def IPFIX_flowEndSeconds : Nat := 151
def IPFIX_flowStartMilliseconds : Nat := 152
def IPFIX_flowEndMilliseconds : Nat := 153
def IPFIX_flowStartDeltaMicroseconds : Nat := 158
def IPFIX_flowEndDeltaMicroseconds : Nat := 159
def IPFIX_SystemInitTimeMiliseconds : Nat := 160
def IPFIX_flowDurationMilliseconds : Nat := 161
def IPFIX_postOctetTotalCount : Nat := 171
def IPFIX_postPacketTotalCount : Nat := 172
def IPFIX_postNATSourceIPv4Address : Nat := 225
def IPFIX_postNATDestinationIPv4Address : Nat := 226
def IPFIX_postNAPTSourceTransportPort : Nat := 227
def IPFIX_postNAPTDestinationTransportPort : Nat := 228
def IPFIX_natEvent : Nat := 230
def IPFIX_INGRESS_VRFID : Nat := 234
def IPFIX_EGRESS_VRFID : Nat := 235
def IPFIX_biflowDirection : Nat := 239
def IPFIX_ReverseInformationElement : Nat := 29305

/-! ## Extension-group ids

Modelled from the spec: the numeric `EX_*` ids live in nfx.h, which is not
part of src/.  The spec (section 4.3 item 6) fixes the canonical iteration
order of the optional extension groups; the ids below are assigned in that
order starting at 4, with COMMON_BLOCK = 0, which is all the compiler
depends on (it iterates the descriptor ids in ascending order and matches
them in a switch). -/

def COMMON_BLOCK : Nat := 0
def EX_IO_SNMP_2 : Nat := 4
def EX_IO_SNMP_4 : Nat := 5
def EX_AS_2 : Nat := 6
def EX_AS_4 : Nat := 7
def EX_MULIPLE : Nat := 8
def EX_NEXT_HOP_v4 : Nat := 9
def EX_NEXT_HOP_v6 : Nat := 10
def EX_NEXT_HOP_BGP_v4 : Nat := 11
def EX_NEXT_HOP_BGP_v6 : Nat := 12
def EX_VLAN : Nat := 13
def EX_OUT_PKG_4 : Nat := 14
def EX_OUT_PKG_8 : Nat := 15
def EX_OUT_BYTES_4 : Nat := 16
def EX_OUT_BYTES_8 : Nat := 17
def EX_AGGR_FLOWS_8 : Nat := 18
def EX_MAC_1 : Nat := 19
def EX_MAC_2 : Nat := 20
def EX_MPLS : Nat := 21
def EX_NEL_COMMON : Nat := 22
def EX_NSEL_XLATE_IP_v4 : Nat := 23
def EX_NSEL_XLATE_PORTS : Nat := 24
def EX_ROUTER_IP_v4 : Nat := 25
def EX_ROUTER_IP_v6 : Nat := 26
def EX_ROUTER_ID : Nat := 27
def EX_RECEIVED : Nat := 28

/-- The descriptor ids visited by `for (i = 4; extension_descriptor[i].id; i++)`
(ipfix.c line 972), in ascending order. -/
def extensionLoopIds : List Nat :=
  [EX_IO_SNMP_2, EX_IO_SNMP_4, EX_AS_2, EX_AS_4, EX_MULIPLE,
   EX_NEXT_HOP_v4, EX_NEXT_HOP_v6, EX_NEXT_HOP_BGP_v4, EX_NEXT_HOP_BGP_v6,
   EX_VLAN, EX_OUT_PKG_4, EX_OUT_PKG_8, EX_OUT_BYTES_4, EX_OUT_BYTES_8,
   EX_AGGR_FLOWS_8, EX_MAC_1, EX_MAC_2, EX_MPLS, EX_NEL_COMMON,
   EX_NSEL_XLATE_IP_v4, EX_NSEL_XLATE_PORTS, EX_ROUTER_IP_v4,
   EX_ROUTER_IP_v6, EX_ROUTER_ID, EX_RECEIVED]

/-- The type value marking a skipped input element in the parse cache
(`SKIP_ELEMENT`; the reorder code comments "type set 0 to mark skip
sequence", and no real element id is 0). -/
def SKIP_ELEMENT : Nat := 0

/-- `#define DYN_FIELD_LENGTH 65535` (ipfix.c line 71). -/
def DYN_FIELD_LENGTH : Nat := 65535

/-! ## The element registry -/

/-- One row of `ipfix_element_map` (ipfix.c lines 206-295). -/
structure ElemRow where
  id : Nat
  length : Nat
  out_length : Nat
  seqOp : OpId
  zeroOp : OpId
  extension : Nat
deriving DecidableEq, Repr, Inhabited

/-- The out-of-range row (also the unused row 0 and the sentinel). -/
def emptyRow : ElemRow := ⟨0, 0, 0, .nop, .nop, 0⟩

/-- `ipfix_element_map` (ipfix.c lines 213-295), row for row in source
order, with the trailing {0,0,0} sentinel. -/
def ipfix_element_map : List ElemRow :=
  [⟨0, 0, 0, .nop, .nop, 0⟩,
   ⟨IPFIX_octetDeltaCount, 4, 8, .move32_sampling, .zero64, COMMON_BLOCK⟩,
   ⟨IPFIX_octetDeltaCount, 8, 8, .move64_sampling, .zero64, COMMON_BLOCK⟩,
   ⟨IPFIX_packetDeltaCount, 4, 8, .move32_sampling, .zero64, COMMON_BLOCK⟩,
   ⟨IPFIX_packetDeltaCount, 8, 8, .move64_sampling, .zero64, COMMON_BLOCK⟩,
   ⟨IPFIX_octetTotalCount, 4, 8, .move32_sampling, .zero64, COMMON_BLOCK⟩,
   ⟨IPFIX_octetTotalCount, 8, 8, .move64_sampling, .zero64, COMMON_BLOCK⟩,
   ⟨IPFIX_octetTotalCount, 6, 8, .move48_sampling, .zero64, COMMON_BLOCK⟩,
   ⟨IPFIX_packetTotalCount, 4, 8, .move32_sampling, .zero64, COMMON_BLOCK⟩,
   ⟨IPFIX_packetTotalCount, 8, 8, .move64_sampling, .zero64, COMMON_BLOCK⟩,
   ⟨IPFIX_packetTotalCount, 6, 8, .move48_sampling, .zero64, COMMON_BLOCK⟩,
   ⟨IPFIX_forwardingStatus, 1, 1, .move8, .zero8, COMMON_BLOCK⟩,
   ⟨IPFIX_protocolIdentifier, 1, 1, .move8, .zero8, COMMON_BLOCK⟩,
   ⟨IPFIX_ipClassOfService, 1, 1, .move8, .zero8, COMMON_BLOCK⟩,
   ⟨IPFIX_tcpControlBits, 1, 1, .move8, .zero8, COMMON_BLOCK⟩,
   ⟨IPFIX_tcpControlBits, 2, 1, .move_flags, .zero8, COMMON_BLOCK⟩,
   ⟨IPFIX_SourceTransportPort, 2, 2, .move16, .zero16, COMMON_BLOCK⟩,
   ⟨IPFIX_SourceIPv4Address, 4, 4, .move32, .zero32, COMMON_BLOCK⟩,
   ⟨IPFIX_SourceIPv4PrefixLength, 1, 1, .move8, .zero8, EX_MULIPLE⟩,
   ⟨IPFIX_ingressInterface, 4, 4, .move32, .zero32, EX_IO_SNMP_4⟩,
   ⟨IPFIX_ingressInterface, 2, 2, .move16, .zero16, EX_IO_SNMP_2⟩,
   ⟨IPFIX_DestinationTransportPort, 2, 2, .move16, .zero16, COMMON_BLOCK⟩,
   ⟨IPFIX_DestinationIPv4Address, 4, 4, .move32, .zero32, COMMON_BLOCK⟩,
   ⟨IPFIX_DestinationIPv4PrefixLength, 1, 1, .move8, .zero8, EX_MULIPLE⟩,
   ⟨IPFIX_egressInterface, 4, 4, .move32, .zero32, EX_IO_SNMP_4⟩,
   ⟨IPFIX_egressInterface, 2, 2, .move16, .zero16, EX_IO_SNMP_2⟩,
   ⟨IPFIX_ipNextHopIPv4Address, 4, 4, .move32, .zero32, EX_NEXT_HOP_v4⟩,
   ⟨IPFIX_bgpSourceAsNumber, 4, 4, .move32, .zero32, EX_AS_4⟩,
   ⟨IPFIX_bgpSourceAsNumber, 2, 2, .move16, .zero16, EX_AS_2⟩,
   ⟨IPFIX_bgpDestinationAsNumber, 4, 4, .move32, .zero32, EX_AS_4⟩,
   ⟨IPFIX_bgpDestinationAsNumber, 2, 2, .move16, .zero16, EX_AS_2⟩,
   ⟨IPFIX_bgpNextHopIPv4Address, 4, 4, .move32, .zero32, EX_NEXT_HOP_BGP_v4⟩,
   ⟨IPFIX_flowEndSysUpTime, 4, 4, .TimeMili, .nop, COMMON_BLOCK⟩,
   ⟨IPFIX_flowStartSysUpTime, 4, 4, .TimeMili, .nop, COMMON_BLOCK⟩,
   ⟨IPFIX_postOctetDeltaCount, 8, 8, .move64_sampling, .zero64, EX_OUT_BYTES_8⟩,
   ⟨IPFIX_postOctetDeltaCount, 4, 8, .move32_sampling, .zero64, EX_OUT_BYTES_8⟩,
   ⟨IPFIX_postPacketDeltaCount, 8, 8, .move64_sampling, .zero64, EX_OUT_PKG_8⟩,
   ⟨IPFIX_postPacketDeltaCount, 4, 8, .move32_sampling, .zero64, EX_OUT_PKG_8⟩,
   ⟨IPFIX_SourceIPv6Address, 16, 16, .move128, .zero128, COMMON_BLOCK⟩,
   ⟨IPFIX_DestinationIPv6Address, 16, 16, .move128, .zero128, COMMON_BLOCK⟩,
   ⟨IPFIX_SourceIPv6PrefixLength, 1, 1, .move8, .zero8, EX_MULIPLE⟩,
   ⟨IPFIX_DestinationIPv6PrefixLength, 1, 1, .move8, .zero8, EX_MULIPLE⟩,
   ⟨IPFIX_icmpTypeCodeIPv4, 2, 2, .saveICMP, .nop, COMMON_BLOCK⟩,
   ⟨IPFIX_icmpTypeCodeIPv6, 2, 2, .saveICMP, .nop, COMMON_BLOCK⟩,
   ⟨IPFIX_postIpClassOfService, 1, 1, .move8, .zero8, EX_MULIPLE⟩,
   ⟨IPFIX_SourceMacAddress, 6, 8, .move_mac, .zero64, EX_MAC_1⟩,
   ⟨IPFIX_postDestinationMacAddress, 6, 8, .move_mac, .zero64, EX_MAC_1⟩,
   ⟨IPFIX_vlanId, 2, 2, .move16, .zero16, EX_VLAN⟩,
   ⟨IPFIX_postVlanId, 2, 2, .move16, .zero16, EX_VLAN⟩,
   ⟨IPFIX_flowDirection, 1, 1, .move8, .zero8, EX_MULIPLE⟩,
   ⟨IPFIX_biflowDirection, 1, 1, .move8, .zero8, COMMON_BLOCK⟩,
   ⟨IPFIX_flowEndReason, 1, 1, .move8, .zero8, COMMON_BLOCK⟩,
   ⟨IPFIX_ipNextHopIPv6Address, 16, 16, .move128, .zero128, EX_NEXT_HOP_v6⟩,
   ⟨IPFIX_bgpNextHopIPv6Address, 16, 16, .move128, .zero128, EX_NEXT_HOP_BGP_v6⟩,
   ⟨IPFIX_mplsTopLabelStackSection, 3, 4, .move_mpls, .zero32, EX_MPLS⟩,
   ⟨IPFIX_mplsLabelStackSection2, 3, 4, .move_mpls, .zero32, EX_MPLS⟩,
   ⟨IPFIX_mplsLabelStackSection3, 3, 4, .move_mpls, .zero32, EX_MPLS⟩,
   ⟨IPFIX_mplsLabelStackSection4, 3, 4, .move_mpls, .zero32, EX_MPLS⟩,
   ⟨IPFIX_mplsLabelStackSection5, 3, 4, .move_mpls, .zero32, EX_MPLS⟩,
   ⟨IPFIX_mplsLabelStackSection6, 3, 4, .move_mpls, .zero32, EX_MPLS⟩,
   ⟨IPFIX_mplsLabelStackSection7, 3, 4, .move_mpls, .zero32, EX_MPLS⟩,
   ⟨IPFIX_mplsLabelStackSection8, 3, 4, .move_mpls, .zero32, EX_MPLS⟩,
   ⟨IPFIX_mplsLabelStackSection9, 3, 4, .move_mpls, .zero32, EX_MPLS⟩,
   ⟨IPFIX_mplsLabelStackSection10, 3, 4, .move_mpls, .zero32, EX_MPLS⟩,
   ⟨IPFIX_DestinationMacAddress, 6, 8, .move_mac, .zero64, EX_MAC_2⟩,
   ⟨IPFIX_postSourceMacAddress, 6, 8, .move_mac, .zero64, EX_MAC_2⟩,
   ⟨IPFIX_flowStartMilliseconds, 8, 8, .Time64Mili, .nop, COMMON_BLOCK⟩,
   ⟨IPFIX_flowEndMilliseconds, 8, 8, .Time64Mili, .nop, COMMON_BLOCK⟩,
   ⟨IPFIX_flowStartSeconds, 4, 4, .TimeUnix, .zero32, COMMON_BLOCK⟩,
   ⟨IPFIX_flowEndSeconds, 4, 4, .TimeUnix, .zero32, COMMON_BLOCK⟩,
   ⟨IPFIX_flowStartDeltaMicroseconds, 4, 4, .TimeDeltaMicro, .zero32, COMMON_BLOCK⟩,
   ⟨IPFIX_flowEndDeltaMicroseconds, 4, 4, .TimeDeltaMicro, .zero32, COMMON_BLOCK⟩,
   ⟨IPFIX_SystemInitTimeMiliseconds, 8, 8, .SystemInitTime, .nop, COMMON_BLOCK⟩,
   ⟨IPFIX_flowDurationMilliseconds, 4, 4, .Time64MiliDur, .nop, COMMON_BLOCK⟩,
   ⟨IPFIX_natEvent, 1, 1, .move8, .zero8, EX_NEL_COMMON⟩,
   ⟨IPFIX_INGRESS_VRFID, 4, 4, .move32, .zero32, EX_NEL_COMMON⟩,
   ⟨IPFIX_EGRESS_VRFID, 4, 4, .move32, .zero32, EX_NEL_COMMON⟩,
   ⟨IPFIX_postNATSourceIPv4Address, 4, 4, .move32, .zero32, EX_NSEL_XLATE_IP_v4⟩,
   ⟨IPFIX_postNATDestinationIPv4Address, 4, 4, .move32, .zero32, EX_NSEL_XLATE_IP_v4⟩,
   ⟨IPFIX_postNAPTSourceTransportPort, 2, 2, .move16, .zero16, EX_NSEL_XLATE_PORTS⟩,
   ⟨IPFIX_postNAPTDestinationTransportPort, 2, 2, .move16, .zero16, EX_NSEL_XLATE_PORTS⟩,
   ⟨0, 0, 0, .nop, .nop, 0⟩]

/-- The forward-to-reverse element map `ipfixReverseMap` (lines 298-307). -/
def ipfixReverseMap : List (Nat × Nat) :=
  [(IPFIX_octetTotalCount, IPFIX_postOctetTotalCount),
   (IPFIX_packetTotalCount, IPFIX_postPacketTotalCount),
   (IPFIX_octetDeltaCount, IPFIX_postOctetDeltaCount),
   (IPFIX_packetDeltaCount, IPFIX_postPacketDeltaCount)]

/-- Reverse mapping of one element type (`MapElement` lines 484-492): the
first matching forward id is replaced, otherwise the type stays. -/
def reverseMapType (t : Nat) : Nat :=
  (((ipfixReverseMap.find? (fun p => p.1 == t)).map (fun p => p.2)).getD t)

/-! ## Template parse cache and element mapping -/

/-- One entry of `cache.lookup_info` (`struct element_param_s`). -/
structure LookupEntry where
  index : Nat
  found : Bool
  length : Nat
deriving DecidableEq, Repr

/-- The per-element-id lookup table, as a function from element id. -/
abbrev Lookup := Nat → LookupEntry

/-- Index of the first row of an element id's run in the registry, the
initialisation loop of `Process_ipfix_template_add` (lines 1326-1331).
Each id's rows are contiguous in the table, so the first row of the run is
the first occurrence; id 0 is the sentinel and never indexed. -/
def firstRowIdx (t : Nat) : Nat :=
  if t = 0 then 0
  else
    match (ipfix_element_map.drop 1).findIdx? (fun r => r.id == t) with
    | some k => k + 1
    | none => 0

/-- The lookup table right after the per-template-record reset (`memset` +
index loop, lines 1325-1331): index points at the first row, found and
length are cleared. -/
def initLookup : Lookup := fun t => ⟨firstRowIdx t, false, 0⟩

/-- Pointwise update of the lookup table. -/
def updLookup (lk : Lookup) (t : Nat) (e : LookupEntry) : Lookup :=
  fun x => if x = t then e else lk x

/-- One entry of `cache.input_order` (`struct order_s`). -/
structure OrderEntry where
  type : Nat
  length : Nat
deriving DecidableEq, Repr, Inhabited

/-- One announced template field: type, length, enterprise number (0 when
the enterprise bit is unset). -/
structure TField where
  type : Nat
  length : Nat
  enterprise : Nat
deriving DecidableEq, Repr

/-- The row walk of `MapElement` (lines 498-512): starting from the cached
index, scan the contiguous rows of the element id for one whose input
length matches.  The fuel argument only bounds the structurally decreasing
recursion; a full table length is always enough because every run ends at
a row with a different id or the sentinel. -/
def scanRowsGo (T L : Nat) : Nat → Nat → Option Nat
  | _, 0 => none
  | i, fuel + 1 =>
    if i ≠ 0 ∧ (ipfix_element_map.getD i emptyRow).id = T then
      if (ipfix_element_map.getD i emptyRow).length = L then some i
      else scanRowsGo T L (i + 1) fuel
    else none

/-- Row scan entry point: a zero cached index means the id is unknown. -/
def scanRows (T L start : Nat) : Option Nat :=
  if start = 0 then none else scanRowsGo T L start ipfix_element_map.length

/-- `MapElement` (ipfix.c lines 473-520).  Returns the updated lookup
table, the input-order entry recorded for this field (the mapped type on
success, SKIP_ELEMENT with the declared length otherwise) and the extension
id of the matched row (none when the element is skipped).  Enterprise
number 6871 (yaf) and any enterprise other than the reverse-element PEN
29305 skip the field; 29305 first maps the type to its reverse id.  On a
match the cached index is moved to the matched row, which makes the scan of
a later occurrence of the same id start at that row. -/
def MapElement (lk : Lookup) (Typ Length Enterprise : Nat) :
    Lookup × OrderEntry × Option Nat :=
  if Enterprise = 6871 then (lk, ⟨SKIP_ELEMENT, Length⟩, none)
  else if Enterprise ≠ 0 ∧ Enterprise ≠ IPFIX_ReverseInformationElement then
    (lk, ⟨SKIP_ELEMENT, Length⟩, none)
  else
    let T := if Enterprise = IPFIX_ReverseInformationElement then
        reverseMapType Typ else Typ
    match scanRows T Length (lk T).index with
    | some i =>
      (updLookup lk T ⟨i, true, Length⟩, ⟨T, Length⟩,
        some (ipfix_element_map.getD i emptyRow).extension)
    | none => (lk, ⟨SKIP_ELEMENT, Length⟩, none)

/-- Result of mapping all fields of one template record. -/
structure MapOut where
  order : List OrderEntry
  lk : Lookup
  commonExt : List Nat
  numExt : Nat

/-- One iteration of the element loop of `Process_ipfix_template_add`
(lines 1353-1395): map the field, append its input-order entry, and record
its extension once when enabled (`cache.common_extensions`). -/
def mapStep (enabled : Nat → Bool) (st : MapOut) (f : TField) : MapOut :=
  let r := MapElement st.lk f.type f.length f.enterprise
  let st1 : MapOut :=
    { st with lk := r.1, order := st.order ++ [r.2.1] }
  match r.2.2 with
  | some ext =>
    if enabled ext ∧ ¬ st1.commonExt.contains ext then
      { st1 with commonExt := st1.commonExt ++ [ext], numExt := st1.numExt + 1 }
    else st1
  | none => st1

/-- The element loop of `Process_ipfix_template_add` over all announced
fields of one template record. -/
def mapPhase (enabled : Nat → Bool) (fields : List TField) : MapOut :=
  fields.foldl (mapStep enabled) ⟨[], initLookup, [], 0⟩

/-- Merge loop of `compact_input_order`, with a structural fuel argument:
consecutive fixed-length SKIP entries are merged into one (line 693 adds
the lengths on the uint16_t order-entry length); dynamic-length skips are
never merged.  Each recursive call shortens the list, so a fuel of the
list length always suffices. -/
def compactGo : Nat → List OrderEntry → List OrderEntry
  | _, [] => []
  | _, [e] => [e]
  | 0, l => l
  | fuel + 1, e1 :: e2 :: rest =>
    if e1.type = SKIP_ELEMENT ∧ e1.length ≠ DYN_FIELD_LENGTH ∧
       e2.type = SKIP_ELEMENT ∧ e2.length ≠ DYN_FIELD_LENGTH then
      compactGo fuel (⟨SKIP_ELEMENT, (e1.length + e2.length) % 65536⟩ :: rest)
    else e1 :: compactGo fuel (e2 :: rest)

/-- `compact_input_order` (ipfix.c lines 674-720). -/
def compact_input_order (l : List OrderEntry) : List OrderEntry :=
  compactGo l.length l

/-- The common-input-field check at the end of `compact_input_order`
(lines 712-718). -/
def hasCommonField (l : List OrderEntry) : Bool :=
  l.any (fun e => e.type ≠ SKIP_ELEMENT)

/-! ## Sequencer construction (setup_translation_table) -/

/-- Byte offset of the `first` field inside the fixed common-record header
(BYTE_OFFSET_first of nffile.h; the header is not part of src/ — the value
is the offset of `first` in `common_record_t`, and no claim depends on it). -/
def BYTE_OFFSET_first : Nat := 12

/-- Compiler state while `setup_translation_table` builds the sequencer:
the steps pushed so far, the output offset cursor, the extension-map id
list, and the router-ip / received offsets. -/
structure BuildState where
  steps : List SeqStep
  offset : Nat
  exIds : List Nat
  router_ip_offset : Nat
  received_offset : Nat
deriving DecidableEq, Repr, Inhabited

/-- `PushSequence` (ipfix.c lines 649-672): a found element pushes its move
opcode with the cached input length; an absent element pushes the zero
opcode of its first registry row with input length 0 (the entry is
calloc-initialised) and no stack slot.  The output offset cursor advances
by the row's output length only when an offset pointer was passed. -/
def pushSeq (lk : Lookup) (Typ : Nat) (useOff : Bool) (stack : StackSlot)
    (st : BuildState) : BuildState :=
  let e := lk Typ
  let row := ipfix_element_map.getD e.index emptyRow
  let off := if useOff then st.offset else 0
  let s : SeqStep :=
    if e.found then ⟨row.seqOp, 0, Typ, e.length, off, stack⟩
    else ⟨row.zeroOp, 0, Typ, 0, off, .noSlot⟩
  { st with
    steps := st.steps ++ [s]
    offset := if useOff then st.offset + row.out_length else st.offset }

/-- One arm of the extension switch of `setup_translation_table` (lines
977-1101).  Returns the updated state and the `map_index` recorded in the
extension map (different from the loop id only for the router-ip pair). -/
def extPush (lk : Lookup) (ipv6 isV6exp : Bool) (i : Nat) (st : BuildState) :
    BuildState × Nat :=
  if i = EX_IO_SNMP_2 ∨ i = EX_IO_SNMP_4 then
    (pushSeq lk IPFIX_egressInterface true .noSlot
      (pushSeq lk IPFIX_ingressInterface true .noSlot st), i)
  else if i = EX_AS_2 ∨ i = EX_AS_4 then
    (pushSeq lk IPFIX_bgpDestinationAsNumber true .noSlot
      (pushSeq lk IPFIX_bgpSourceAsNumber true .noSlot st), i)
  else if i = EX_MULIPLE then
    let st1 := pushSeq lk IPFIX_flowDirection true .noSlot
      (pushSeq lk IPFIX_postIpClassOfService true .noSlot st)
    if ipv6 then
      (pushSeq lk IPFIX_DestinationIPv6PrefixLength true .noSlot
        (pushSeq lk IPFIX_SourceIPv6PrefixLength true .noSlot st1), i)
    else
      (pushSeq lk IPFIX_DestinationIPv4PrefixLength true .noSlot
        (pushSeq lk IPFIX_SourceIPv4PrefixLength true .noSlot st1), i)
  else if i = EX_NEXT_HOP_v4 then
    (pushSeq lk IPFIX_ipNextHopIPv4Address true .noSlot st, i)
  else if i = EX_NEXT_HOP_v6 then
    (pushSeq lk IPFIX_ipNextHopIPv6Address true .noSlot st, i)
  else if i = EX_NEXT_HOP_BGP_v4 then
    (pushSeq lk IPFIX_bgpNextHopIPv4Address true .noSlot st, i)
  else if i = EX_NEXT_HOP_BGP_v6 then
    (pushSeq lk IPFIX_bgpNextHopIPv6Address true .noSlot st, i)
  else if i = EX_VLAN then
    (pushSeq lk IPFIX_postVlanId true .noSlot
      (pushSeq lk IPFIX_vlanId true .noSlot st), i)
  else if i = EX_OUT_PKG_4 ∨ i = EX_OUT_PKG_8 then
    (pushSeq lk IPFIX_postPacketDeltaCount true .slotOutPackets st, i)
  else if i = EX_OUT_BYTES_4 ∨ i = EX_OUT_BYTES_8 then
    (pushSeq lk IPFIX_postOctetDeltaCount true .slotOutBytes st, i)
  else if i = EX_AGGR_FLOWS_8 then (st, i)
  else if i = EX_MAC_1 then
    (pushSeq lk IPFIX_postDestinationMacAddress true .noSlot
      (pushSeq lk IPFIX_SourceMacAddress true .noSlot st), i)
  else if i = EX_MAC_2 then
    (pushSeq lk IPFIX_postSourceMacAddress true .noSlot
      (pushSeq lk IPFIX_DestinationMacAddress true .noSlot st), i)
  else if i = EX_MPLS then
    (pushSeq lk IPFIX_mplsLabelStackSection10 true .noSlot
      (pushSeq lk IPFIX_mplsLabelStackSection9 true .noSlot
        (pushSeq lk IPFIX_mplsLabelStackSection8 true .noSlot
          (pushSeq lk IPFIX_mplsLabelStackSection7 true .noSlot
            (pushSeq lk IPFIX_mplsLabelStackSection6 true .noSlot
              (pushSeq lk IPFIX_mplsLabelStackSection5 true .noSlot
                (pushSeq lk IPFIX_mplsLabelStackSection4 true .noSlot
                  (pushSeq lk IPFIX_mplsLabelStackSection3 true .noSlot
                    (pushSeq lk IPFIX_mplsLabelStackSection2 true .noSlot
                      (pushSeq lk IPFIX_mplsTopLabelStackSection true .noSlot
                        st))))))))), i)
  else if i = EX_NEL_COMMON then
    let st1 := pushSeq lk IPFIX_natEvent true .noSlot st
    let st2 := { st1 with offset := st1.offset + 3 }
    (pushSeq lk IPFIX_INGRESS_VRFID true .noSlot
      (pushSeq lk IPFIX_EGRESS_VRFID true .noSlot st2), i)
  else if i = EX_NSEL_XLATE_IP_v4 then
    (pushSeq lk IPFIX_postNATDestinationIPv4Address true .noSlot
      (pushSeq lk IPFIX_postNATSourceIPv4Address true .noSlot st), i)
  else if i = EX_NSEL_XLATE_PORTS then
    (pushSeq lk IPFIX_postNAPTDestinationTransportPort true .noSlot
      (pushSeq lk IPFIX_postNAPTSourceTransportPort true .noSlot st), i)
  else if i = EX_ROUTER_IP_v4 ∨ i = EX_ROUTER_IP_v6 then
    if isV6exp then
      ({ st with router_ip_offset := st.offset, offset := st.offset + 16 },
        EX_ROUTER_IP_v6)
    else
      ({ st with router_ip_offset := st.offset, offset := st.offset + 4 },
        EX_ROUTER_IP_v4)
  else if i = EX_ROUTER_ID then (st, i)
  else if i = EX_RECEIVED then
    ({ st with received_offset := st.offset, offset := st.offset + 8 }, i)
  else (st, i)

/-- The sequencer-building part of `setup_translation_table` (ipfix.c lines
887-1130): time-base selection, the mandatory common-record pushes, the
address family, counters, the extension loop, and the trailing ICMP
type/code pushes.  Every push on a fresh (or refreshed) table starts from
an empty, zeroed sequence array. -/
def buildTable (lk : Lookup) (commonExt : List Nat) (isV6exp : Bool) :
    BuildState :=
  let st0 : BuildState := ⟨[], BYTE_OFFSET_first, [], 0, 0⟩
  let st1 :=
    if (lk IPFIX_flowStartDeltaMicroseconds).found then
      pushSeq lk IPFIX_flowEndDeltaMicroseconds false .slotFlowEnd
        (pushSeq lk IPFIX_flowStartDeltaMicroseconds false .slotFlowStart st0)
    else if (lk IPFIX_flowStartMilliseconds).found then
      pushSeq lk IPFIX_flowDurationMilliseconds false .slotDuration
        (pushSeq lk IPFIX_flowEndMilliseconds false .slotFlowEnd
          (pushSeq lk IPFIX_flowStartMilliseconds false .slotFlowStart st0))
    else if (lk IPFIX_flowStartSysUpTime).found then
      pushSeq lk IPFIX_SystemInitTimeMiliseconds false .slotSysUpTime
        (pushSeq lk IPFIX_flowEndSysUpTime false .slotFlowEnd
          (pushSeq lk IPFIX_flowStartSysUpTime false .slotFlowStart st0))
    else if (lk IPFIX_flowStartSeconds).found then
      pushSeq lk IPFIX_flowEndSeconds false .slotFlowEnd
        (pushSeq lk IPFIX_flowStartSeconds false .slotFlowStart st0)
    else st0
  let st2 := { st1 with offset := BYTE_OFFSET_first + 8 }
  let st3 := pushSeq lk IPFIX_ipClassOfService true .noSlot
    (pushSeq lk IPFIX_protocolIdentifier true .noSlot
      (pushSeq lk IPFIX_tcpControlBits true .noSlot
        (pushSeq lk IPFIX_forwardingStatus true .noSlot st2)))
  let st4 := pushSeq lk IPFIX_DestinationTransportPort true .noSlot
    (pushSeq lk IPFIX_SourceTransportPort true .noSlot st3)
  let st5 := { st4 with offset := st4.offset + 2 }
  let st6 := pushSeq lk IPFIX_flowEndReason true .noSlot
    (pushSeq lk IPFIX_biflowDirection true .noSlot st5)
  let ipv6 := ¬ (lk IPFIX_SourceIPv4Address).found ∧
    (lk IPFIX_SourceIPv6Address).found
  let st7 :=
    if (lk IPFIX_SourceIPv4Address).found then
      pushSeq lk IPFIX_DestinationIPv4Address true .noSlot
        (pushSeq lk IPFIX_SourceIPv4Address true .noSlot st6)
    else if (lk IPFIX_SourceIPv6Address).found then
      pushSeq lk IPFIX_DestinationIPv6Address true .noSlot
        (pushSeq lk IPFIX_SourceIPv6Address true .noSlot st6)
    else
      pushSeq lk IPFIX_DestinationIPv4Address true .noSlot
        (pushSeq lk IPFIX_SourceIPv4Address true .noSlot st6)
  let st8 :=
    if (lk IPFIX_packetTotalCount).found then
      pushSeq lk IPFIX_packetTotalCount true .slotPackets st7
    else pushSeq lk IPFIX_packetDeltaCount true .slotPackets st7
  let st9 :=
    if (lk IPFIX_octetTotalCount).found then
      pushSeq lk IPFIX_octetTotalCount true .slotBytes st8
    else pushSeq lk IPFIX_octetDeltaCount true .slotBytes st8
  let stE := extensionLoopIds.foldl
    (fun st i =>
      if commonExt.contains i then
        let r := extPush lk ipv6 isV6exp i st
        { r.1 with exIds := r.1.exIds ++ [r.2] }
      else st) st9
  let stI :=
    if (lk IPFIX_icmpTypeCodeIPv4).found ∧ (lk IPFIX_icmpTypeCodeIPv4).length = 2
    then pushSeq lk IPFIX_icmpTypeCodeIPv4 false .slotIcmpTypeCode stE
    else stE
  if (lk IPFIX_icmpTypeCodeIPv6).found ∧ (lk IPFIX_icmpTypeCodeIPv6).length = 2
  then pushSeq lk IPFIX_icmpTypeCodeIPv6 false .slotIcmpTypeCode stI
  else stI

/-! ## Sequencer reorder -/

/-- A zeroed sequence-map slot.  `setup_translation_table` allocates the
slot array with `calloc` (line 864), so every slot at or beyond
`number_of_sequences` holds opcode 0 (`nop`), element type 0 (which is
also SKIP_ELEMENT), zero counts and offsets, and a NULL stack pointer. -/
def zeroSlot : SeqStep := ⟨.nop, 0, 0, 0, 0, .noSlot⟩

/-- The slot array of a translation table, viewed as a total function from
slot index; reads past the allocated program return the calloc'ed zero
slot. -/
abbrev SeqArr := Nat → SeqStep

/-- Store into one slot of the array. -/
def arrSet (a : SeqArr) (i : Nat) (s : SeqStep) : SeqArr :=
  fun k => if k = i then s else a k

/-- The make-room shift of the skip insertion (lines 747-749):
`for (j = number_of_sequences - 1; j >= n; j--) sequence[j+1] = sequence[j]`.
The copies run from high to low index, so slots n .. cnt-1 move up to
n+1 .. cnt, slot n keeps its old value (it is the source of the last copy
and is overwritten by the caller afterwards), and every other slot is
untouched; with n at or beyond cnt the loop body never runs. -/
def shiftUp (a : SeqArr) (n cnt : Nat) : SeqArr :=
  fun k => if n < k ∧ k ≤ cnt then a (k - 1) else a k

/-- The slot search of `reorder_sequencer` (line 776):
`while (sequence[j].type != type && j < count) j++`.  Returns the final
value of j: the first index at or after the start whose slot carries the
searched type, or the first index at or beyond count otherwise.  In
particular a start value already beyond count is returned unchanged (for a
searched type no zeroed slot carries).  The fuel only bounds the
recursion; `count + 1` is always enough because advancing requires
j < count. -/
def findFrom (a : SeqArr) (cnt typ : Nat) : Nat → Nat → Nat
  | 0, j => j
  | fuel + 1, j =>
    if (a j).type ≠ typ ∧ j < cnt then findFrom a cnt typ fuel (j + 1) else j

/-- The merge of a skipped input field into an earlier slot (lines 766 and
785): `sequence[n-1].skip_count += length` on the uint16_t skip counter. -/
def mergedSkip (p : SeqStep) (len : Nat) : SeqStep :=
  { p with skip_count := (p.skip_count + len) % 65536 }

/-- The skip step built in a freed slot (lines 751-761): the C writes id,
skip_count, type, input_length and stack and keeps whatever output_offset
the slot held. -/
def insSkipSlot (s0 : SeqStep) (len : Nat) : SeqStep :=
  if len = DYN_FIELD_LENGTH then
    { s0 with id := .dyn_skip, skip_count := 0, type := SKIP_ELEMENT,
              input_length := 0, stack := .noSlot }
  else
    { s0 with id := .nop, skip_count := len, type := SKIP_ELEMENT,
              input_length := 0, stack := .noSlot }

/-- The reorder loop of `reorder_sequencer` (ipfix.c lines 737-802) over
the zero-extended slot array; `cnt` is `number_of_sequences` and `n` the
output slot index.  A SKIP entry with dynamic length, or one arriving
while n = 0, shifts the slots up and builds a dyn_skip / nop skip step in
slot n (which after the shift still holds its pre-shift value `a n`, the
source of the last copy), growing the count; any other SKIP entry merges
its length into the skip counter of slot n-1 and does not advance n.  A
known entry whose type is already in slot n advances; otherwise the
search starts at slot n+1: a result equal to count is the
must-never-happen merge of line 779 (into slot n-1, or `return 0` when
n = 0), and any other result is swapped with slot n.  Once n has reached
count the search starts past count and returns n+1, which differs from
count, so the guard is skipped, the two zeroed slots n and n+1 beyond the
program are swapped and the entry is silently dropped. -/
def reorderLoop : List OrderEntry → SeqArr → Nat → Nat →
    Option (SeqArr × Nat)
  | [], a, cnt, _ => some (a, cnt)
  | e :: rest, a, cnt, n =>
    if e.type = SKIP_ELEMENT then
      if e.length = DYN_FIELD_LENGTH ∨ n = 0 then
        reorderLoop rest
          (arrSet (shiftUp a n cnt) n (insSkipSlot (a n) e.length))
          (cnt + 1) (n + 1)
      else
        reorderLoop rest (arrSet a (n - 1) (mergedSkip (a (n - 1)) e.length))
          cnt n
    else
      if (a n).type = e.type then reorderLoop rest a cnt (n + 1)
      else if findFrom a cnt e.type (cnt + 1) (n + 1) = cnt then
        if n = 0 then none
        else
          reorderLoop rest (arrSet a (n - 1) (mergedSkip (a (n - 1)) e.length))
            cnt n
      else
        reorderLoop rest
          (arrSet
            (arrSet a n (a (findFrom a cnt e.type (cnt + 1) (n + 1))))
            (findFrom a cnt e.type (cnt + 1) (n + 1)) (a n))
          cnt (n + 1)

/-- Entry point of the reorder pass: the slot array is the compiled
program extended with the calloc'ed zero slots, n starts at 0, and the
result is the first `number_of_sequences` slots of the final array (the
count changes only through skip insertions). -/
def reorder_sequencer (order : List OrderEntry) (steps : List SeqStep) :
    Option (List SeqStep) :=
  (reorderLoop order (fun k => steps.getD k zeroSlot) steps.length 0).map
    (fun r => (List.range r.2).map r.1)

/-! ## Template-add flow -/

/-- The compile-time data of one template-add: the mapped fields, the
compacted input order and the built (pre-reorder) sequencer state.  The
forced router-ip / received extensions of `Process_ipfix_template_add`
(lines 1403-1431) are appended to the common-extension set before the
build. -/
structure PrepOut where
  mp : MapOut
  order1 : List OrderEntry
  build : BuildState

/-- Mapping, compaction, forced extensions and sequencer build for one
template record. -/
def compilePrep (enabled : Nat → Bool) (isV6exp : Bool) (fields : List TField) :
    PrepOut :=
  let mp := mapPhase enabled fields
  let order1 := compact_input_order mp.order
  let ce1 :=
    if enabled EX_ROUTER_IP_v4 ∧ ¬ mp.commonExt.contains EX_ROUTER_IP_v4 then
      mp.commonExt ++ [EX_ROUTER_IP_v4]
    else mp.commonExt
  let ce2 :=
    if enabled EX_RECEIVED ∧ ¬ ce1.contains EX_RECEIVED then
      ce1 ++ [EX_RECEIVED]
    else ce1
  ⟨mp, order1, buildTable mp.lk ce2 isV6exp⟩

/-- The elementwise extension-map comparison of `setup_translation_table`
(lines 1106-1110): the changed flag becomes true at any position where the
previous map's id differs from the newly computed one (a fresh table
starts with changed already true, so the initial flag is threaded in). -/
def changedScan : List Nat → List Nat → Bool → Bool
  | [], _, c => c
  | _ :: ns, [], _ => changedScan ns [] true
  | n :: ns, p :: ps, c => changedScan ns ps (if p ≠ n then true else c)

/-- Result of one template-add / refresh for a single template record. -/
structure TableRes where
  steps : List SeqStep
  exIds : List Nat
  outSize : Nat
  changed : Bool
  registered : Bool
deriving DecidableEq, Repr

/-- One template record through `Process_ipfix_template_add` (lines
1295-1472) and `setup_translation_table`: skip the template when no
enabled extension or no common field survives (lines 1399, 1457-1459);
otherwise compute the changed flag (a fresh add starts changed = 1, a
refresh starts from the stored flag, which is 0 after any successful add,
and compares against the stored extension ids), register the map iff
changed (lines 1445-1451), and reorder; a failed reorder removes the
table (lines 1453-1456).  `prev` carries the stored extension ids of the
previous compilation of the same template id, or none for a fresh add. -/
def templateAddFlow (enabled : Nat → Bool) (isV6exp : Bool)
    (fields : List TField) (prev : Option (List Nat)) : Option TableRes :=
  let p := compilePrep enabled isV6exp fields
  if p.mp.numExt ≠ 0 ∧ hasCommonField p.order1 = true then
    let ch := changedScan p.build.exIds (prev.getD []) prev.isNone
    (reorder_sequencer p.order1 p.build.steps).map
      (fun st => ⟨st, p.build.exIds, p.build.offset, ch, ch⟩)
  else none

/-! ## Accounting functions for the record-length invariant -/

/-- Sum of `(input_length + skip_count)` over a sequencer, the quantity of
the record-length invariant. -/
def wsum (l : List SeqStep) : Nat :=
  (l.map (fun s => s.input_length + s.skip_count)).sum

/-- Declared on-wire record length: the sum of the entry lengths. -/
def orderTotalLen (l : List OrderEntry) : Nat := (l.map (fun e => e.length)).sum

/-- The element types of a sequencer's steps. -/
def stepTypes (l : List SeqStep) : List Nat := l.map (fun s => s.type)

/-- The element types of the non-skipped input-order entries. -/
def knownTypes (l : List OrderEntry) : List Nat :=
  (l.filter (fun e => e.type ≠ SKIP_ELEMENT)).map (fun e => e.type)

/-- Sum of `f` over the slot indices below `c`. -/
def sumF (f : Nat → Nat) (c : Nat) : Nat := ((List.range c).map f).sum

/-- Sum of `(input_length + skip_count)` over the first `c` slots of the
array: `wsum` of the program the array holds. -/
def wsumF (a : SeqArr) (c : Nat) : Nat :=
  sumF (fun k => (a k).input_length + (a k).skip_count) c

/-- Input bytes the input order routes into skip counters: fixed-length
SKIP entries contribute their length (a dynamic one consumes its bytes
inside the dyn_skip step at run time, not through the counters); known
entries contribute nothing here. -/
def skipLenSum (l : List OrderEntry) : Nat :=
  (l.map (fun e =>
    if e.type = SKIP_ELEMENT ∧ e.length ≠ DYN_FIELD_LENGTH then e.length
    else 0)).sum

/-- Summed lengths of the known (non-skip) input-order entries. -/
def knownLenSum (l : List OrderEntry) : Nat :=
  (l.map (fun e => if e.type ≠ SKIP_ELEMENT then e.length else 0)).sum

/-- Summed lengths of the known entries of one element type. -/
def tLenSum (l : List OrderEntry) (t : Nat) : Nat :=
  (l.map (fun e => if e.type ≠ SKIP_ELEMENT ∧ e.type = t then e.length else 0)).sum

/-- Summed lengths of the known entries whose type occurs among the step
types. -/
def matchedLenSum (l : List OrderEntry) (ts : List Nat) : Nat :=
  (l.map (fun e => if e.type ≠ SKIP_ELEMENT ∧ e.type ∈ ts then e.length else 0)).sum

/-! ## Concrete inputs used by witnesses and counterexamples -/

/-- Extension configuration with only the four mandatory blocks enabled
(no optional extension groups, no router ip, no received time). -/
def enPlain : Nat → Bool := fun i => i < 4

/-- A plain fixed-length template: protocolIdentifier(1), then a 4-byte
octetDeltaCount. -/
def tmplPlain : List TField :=
  [⟨IPFIX_protocolIdentifier, 1, 0⟩, ⟨IPFIX_octetDeltaCount, 4, 0⟩]

/-- A template announcing octetDeltaCount twice with different widths
(4 bytes, then 8 bytes) followed by protocolIdentifier. -/
def tmplDup : List TField :=
  [⟨IPFIX_octetDeltaCount, 4, 0⟩, ⟨IPFIX_octetDeltaCount, 8, 0⟩,
   ⟨IPFIX_protocolIdentifier, 1, 0⟩]

/-- The compiled table of `tmplPlain` on a fresh add. -/
def resPlain : TableRes :=
  (templateAddFlow enPlain false tmplPlain none).getD ⟨[], [], 0, false, false⟩

/-- A 13-field fixed-length template: the twelve elements the common block
pushes for an IPv4 template without time stamps (so the compiled sequencer
has exactly twelve steps, one per announced element), followed by an
8-byte postOctetDeltaCount, whose extension EX_OUT_BYTES_8 is disabled
under `enPlain`. -/
def tmplMand13 : List TField :=
  [⟨IPFIX_forwardingStatus, 1, 0⟩, ⟨IPFIX_tcpControlBits, 1, 0⟩,
   ⟨IPFIX_protocolIdentifier, 1, 0⟩, ⟨IPFIX_ipClassOfService, 1, 0⟩,
   ⟨IPFIX_SourceTransportPort, 2, 0⟩, ⟨IPFIX_DestinationTransportPort, 2, 0⟩,
   ⟨IPFIX_SourceIPv4Address, 4, 0⟩, ⟨IPFIX_DestinationIPv4Address, 4, 0⟩,
   ⟨IPFIX_packetDeltaCount, 4, 0⟩, ⟨IPFIX_octetDeltaCount, 4, 0⟩,
   ⟨IPFIX_biflowDirection, 1, 0⟩, ⟨IPFIX_flowEndReason, 1, 0⟩,
   ⟨IPFIX_postOctetDeltaCount, 8, 0⟩]

/-! # Theorems -/

/-! ## Helper lemmas -/

theorem findtab_isSome_iff (l : List Nat) (a : Nat) :
    ((l.find? (fun t => t == a)).isSome = true) ↔ a ∈ l := by
  induction l with
  | nil => simp [List.find?]
  | cons x xs ih =>
    by_cases h : x = a
    · subst h; simp [List.find?]
    · have hb : (x == a) = false := by simpa using h
      simp only [List.find?, hb, ih, List.mem_cons]
      constructor
      · exact fun hx => Or.inr hx
      · rintro (hc | hx)
        · exact absurd hc.symm h
        · exact hx

theorem stepReadCount_le (inb : Nat → Nat) (off : Nat) (op : OpId) :
    stepReadCount inb off op ≤ 16 := by
  cases op <;> simp only [stepReadCount] <;> (try split) <;> omega

theorem runSteps_reads_lt (inb : Nat → Nat) (ET rate sizeLeft : Nat) :
    ∀ (steps : List SeqStep) (off : Nat) (t : Scratch),
      ∀ r ∈ (runSteps inb ET rate sizeLeft steps off t).reads,
        r < sizeLeft + 16 := by
  intro steps
  induction steps with
  | nil =>
    intro off t r hr
    simp [runSteps] at hr
  | cons s rest ih =>
    intro off t r hr
    by_cases hoff : off > sizeLeft
    · simp only [runSteps, if_pos hoff] at hr
      simp at hr
    · simp only [runSteps, if_neg hoff] at hr
      simp only [List.mem_append] at hr
      rcases hr with h1 | h2
      · simp only [stepReads, List.mem_map, List.mem_range] at h1
        obtain ⟨j, hj, rfl⟩ := h1
        have hc := stepReadCount_le inb off s.id
        omega
      · exact ih _ _ r h2

theorem runSteps_abort_over (inb : Nat → Nat) (ET rate sizeLeft : Nat) :
    ∀ (steps : List SeqStep) (off : Nat) (t : Scratch),
      (runSteps inb ET rate sizeLeft steps off t).aborted = true →
      (runSteps inb ET rate sizeLeft steps off t).endOff > sizeLeft := by
  intro steps
  induction steps with
  | nil =>
    intro off t h
    simp [runSteps] at h
  | cons s rest ih =>
    intro off t h
    by_cases hoff : off > sizeLeft
    · simp only [runSteps, if_pos hoff]
      exact hoff
    · simp only [runSteps, if_neg hoff] at h ⊢
      exact ih _ _ h

theorem runSteps_complete_len (inb : Nat → Nat) (ET rate sizeLeft : Nat) :
    ∀ (steps : List SeqStep) (off : Nat) (t : Scratch),
      (runSteps inb ET rate sizeLeft steps off t).aborted = false →
      (runSteps inb ET rate sizeLeft steps off t).stepsRun = steps.length := by
  intro steps
  induction steps with
  | nil =>
    intro off t _
    simp [runSteps]
  | cons s rest ih =>
    intro off t h
    by_cases hoff : off > sizeLeft
    · simp only [runSteps, if_pos hoff] at h
      exact absurd h (by simp)
    · simp only [runSteps, if_neg hoff] at h ⊢
      rw [ih _ _ h, List.length_cons]

/-! ## Claim C1 -/

/-- Claim C1, counterexample: a program of two one-byte moves run against a
flowset with size_left = 1 reads input indices 0 and 1.  Index 1 lies past
size_left (beyond the flowset), yet the run is not aborted and both steps
execute: the overrun check (`if (input_offset > size_left)`, ipfix.c line
1767) only compares the offset already consumed, so a step that reads past
size_left is not stopped before the out-of-bounds read. -/
theorem claim1_reads_past_size_left :
    (runSteps (fun _ => 0) 0 1 1
      [⟨.move8, 0, 4, 1, 20, .noSlot⟩, ⟨.move8, 0, 5, 1, 21, .noSlot⟩]
      0 {}).reads = [0, 1] ∧
    (runSteps (fun _ => 0) 0 1 1
      [⟨.move8, 0, 4, 1, 20, .noSlot⟩, ⟨.move8, 0, 5, 1, 21, .noSlot⟩]
      0 {}).aborted = false ∧
    (runSteps (fun _ => 0) 0 1 1
      [⟨.move8, 0, 4, 1, 20, .noSlot⟩, ⟨.move8, 0, 5, 1, 21, .noSlot⟩]
      0 {}).stepsRun = 2 := by
  decide

/-- Claim C1 (amended): the per-step check compares only the input offset
already consumed with size_left, so a step beginning at an offset ≤
size_left executes fully and may read past size_left — but never more
than one step's span (at most 16 bytes, the largest read of any opcode)
beyond it: every input index read during a record stays below size_left +
16.  The record is aborted exactly at the first step boundary whose
accumulated offset exceeds size_left (conjunct 2: an aborted run's final
offset exceeds size_left; conjunct 3: an unaborted run executes every
step), and an aborted record abandons the remainder of the flowset: no
record of the flowset is emitted after the abort (conjunct 4, for a
record aborting at the head of the loop), while the dispatcher's handling
of the remaining flowsets of the packet is unaffected because
`Process_ipfix_data` only returns. -/
theorem claim1_truncation_check (inb : Nat → Nat) (ET rate sizeLeft : Nat)
    (steps : List SeqStep) (t : Scratch) :
    (∀ r ∈ (runSteps inb ET rate sizeLeft steps 0 t).reads,
      r < sizeLeft + 16) ∧
    ((runSteps inb ET rate sizeLeft steps 0 t).aborted = true →
      (runSteps inb ET rate sizeLeft steps 0 t).endOff > sizeLeft) ∧
    ((runSteps inb ET rate sizeLeft steps 0 t).aborted = false →
      (runSteps inb ET rate sizeLeft steps 0 t).stepsRun = steps.length) ∧
    (∀ fuel base s, 4 ≤ s →
      (runSteps (fun k => inb (base + k)) ET rate s steps 0
        (recordScratchInit t)).aborted = true →
      processRecords inb ET rate steps (fuel + 1) base s t = ⟨0, true⟩) := by
  refine ⟨runSteps_reads_lt inb ET rate sizeLeft steps 0 t,
    runSteps_abort_over inb ET rate sizeLeft steps 0 t,
    runSteps_complete_len inb ET rate sizeLeft steps 0 t, ?_⟩
  intro fuel base s hs hab
  have h0 : ¬ (s = 0) := by omega
  have h4 : ¬ (s < 4) := by omega
  simp only [processRecords, if_neg h0, if_neg h4, hab, if_pos]

/-- Claim C1 witness: a record whose first step skips 5 bytes against
size_left = 4 aborts at the second step boundary with offset 5 > 4, and
the flowset loop stops there emitting nothing. -/
theorem claim1_witness :
    (runSteps (fun _ => 0) 0 1 4
      [⟨.nop, 5, 0, 0, 0, .noSlot⟩, ⟨.move8, 0, 4, 1, 20, .noSlot⟩]
      0 {}).endOff > 4 ∧
    processRecords (fun _ => 0) 0 1
      [⟨.nop, 5, 0, 0, 0, .noSlot⟩, ⟨.move8, 0, 4, 1, 20, .noSlot⟩]
      3 0 4 {} = ⟨0, true⟩ := by
  constructor
  · exact (claim1_truncation_check (fun _ => 0) 0 1 4
      [⟨.nop, 5, 0, 0, 0, .noSlot⟩, ⟨.move8, 0, 4, 1, 20, .noSlot⟩] {}).2.1
      (by decide)
  · exact (claim1_truncation_check (fun _ => 0) 0 1 4
      [⟨.nop, 5, 0, 0, 0, .noSlot⟩, ⟨.move8, 0, 4, 1, 20, .noSlot⟩] {}).2.2.2
      2 0 4 (by omega) (by decide)

/-! ## Claim C2 -/

/-- Claim C2, counterexample: the scratch initialisation at the start of a
data record (`Process_ipfix_data` lines 1754-1760) does not zero duration,
HasTimeMili or icmpTypeCode, so a scratch frame left over from previous
processing keeps those values, contradicting the claim that all ten
scratch fields are zero before the first step. -/
theorem claim2_scratch_not_all_zero :
    (recordScratchInit
      { duration := 7, HasTimeMili := true, icmpTypeCode := 3 }).duration = 7 ∧
    (recordScratchInit
      { duration := 7, HasTimeMili := true, icmpTypeCode := 3 }).HasTimeMili = true ∧
    (recordScratchInit
      { duration := 7, HasTimeMili := true, icmpTypeCode := 3 }).icmpTypeCode = 3 := by
  decide

/-- Claim C2 (amended): at the start of every data record the VM zeroes
exactly flow_start, flow_end, SysUpTime, packets, bytes, out_packets and
out_bytes of the scratch frame; duration, HasTimeMili and icmpTypeCode
keep the value left by previous processing, and a retained duration can
change the emitted times of the current record (second conjunct: the same
record data produces different output times depending on the stale
duration). -/
theorem claim2_scratch_reset :
    (∀ t : Scratch,
      (recordScratchInit t).flow_start = 0 ∧
      (recordScratchInit t).flow_end = 0 ∧
      (recordScratchInit t).SysUpTime = 0 ∧
      (recordScratchInit t).packets = 0 ∧
      (recordScratchInit t).bytes = 0 ∧
      (recordScratchInit t).out_packets = 0 ∧
      (recordScratchInit t).out_bytes = 0 ∧
      (recordScratchInit t).duration = t.duration ∧
      (recordScratchInit t).HasTimeMili = t.HasTimeMili ∧
      (recordScratchInit t).icmpTypeCode = t.icmpTypeCode) ∧
    finishTimes 0
        { recordScratchInit { duration := 7 } with flow_start := 1700000000000 } ≠
      finishTimes 0
        { recordScratchInit { duration := 0 } with flow_start := 1700000000000 } := by
  exact ⟨fun t => ⟨rfl, rfl, rfl, rfl, rfl, rfl, rfl, rfl, rfl, rfl⟩, by decide⟩

/-! ## Claim C3 -/

/-- Claim C3, counterexample: a record with flow_start = 1700000000000 ms
and no flow_end data yields first = 1700000000 and last = 0 after the
split.  last (= 0) is below 820454400, so the claim as stated requires
first to be zeroed, but the code keeps first = 1700000000: the gate
deliberately ignores a zero last. -/
theorem claim3_zero_last_not_gated :
    (finishTimes 0 { flow_start := 1700000000000 }).last = 0 ∧
    (finishTimes 0 { flow_start := 1700000000000 }).last < 820454400 ∧
    (finishTimes 0 { flow_start := 1700000000000 }).first = 1700000000 := by
  decide

/-- Claim C3 (amended): after time reconstruction the record times are
zeroed exactly when the computed first is below 820454400, or the computed
last is nonzero and below 820454400 (a zero last alone does not trigger
the gate); otherwise the split values are written unchanged.  In
particular every record whose reconstructed flow_start lies below
820454400 seconds has first = msec_first = last = msec_last = 0. -/
theorem claim3_sanity_gate (sysUp : Nat) (t : Scratch) :
    ((timeSplit (timeAdjust sysUp t)).first < 820454400 ∨
        ((timeSplit (timeAdjust sysUp t)).last ≠ 0 ∧
          (timeSplit (timeAdjust sysUp t)).last < 820454400) →
      finishTimes sysUp t = ⟨0, 0, 0, 0⟩) ∧
    (¬ ((timeSplit (timeAdjust sysUp t)).first < 820454400 ∨
        ((timeSplit (timeAdjust sysUp t)).last ≠ 0 ∧
          (timeSplit (timeAdjust sysUp t)).last < 820454400)) →
      finishTimes sysUp t = timeSplit (timeAdjust sysUp t)) := by
  constructor
  · intro h
    simp only [finishTimes, timeGate, if_pos h]
  · intro h
    simp only [finishTimes, timeGate, if_neg h]

/-- Claim C3 witness: both branches of the gate at concrete records — a
flow_start of 5000000 ms (5000 s, before 1996) is zeroed; the
1700000000000 ms record passes through unchanged. -/
theorem claim3_witness :
    finishTimes 0 { flow_start := 5000000, flow_end := 5000000 } = ⟨0, 0, 0, 0⟩ ∧
    finishTimes 0 { flow_start := 1700000000000, flow_end := 1700000005000 } =
      timeSplit (timeAdjust 0
        { flow_start := 1700000000000, flow_end := 1700000005000 }) := by
  constructor
  · exact (claim3_sanity_gate 0 { flow_start := 5000000, flow_end := 5000000 }).1
      (by decide)
  · exact (claim3_sanity_gate 0
      { flow_start := 1700000000000, flow_end := 1700000005000 }).2 (by decide)

/-! ## Claim C4 -/

/-- Claim C4, counterexample: with no overwrite, no standard sampler and a
default sampling rate of 0, the code's active rate is 0, not the claimed
fallback of 1 — and the SAMPLED flag is asserted because 0 differs
from 1. -/
theorem claim4_zero_default_rate :
    selectSamplingRate [] 0 0 = 0 ∧
    applySampledFlag false (selectSamplingRate [] 0 0) = true := by
  decide

/-- Claim C4 (amended): the active sampling rate is the overwrite value
when nonzero; otherwise the interval of the first sampler with id = -1
when one exists; otherwise the configured default sampling rate, whatever
its value — there is no final fallback to 1 (a zero default yields rate
0).  Whenever the rate differs from 1 the SAMPLED flag is asserted. -/
theorem claim4_rate_selection (samplers : List SamplerRec) (d o : Nat) :
    (o > 0 → selectSamplingRate samplers d o = o) ∧
    (o = 0 → ∀ s, findStdSampler samplers = some s →
      selectSamplingRate samplers d o = s.interval) ∧
    (o = 0 → findStdSampler samplers = none →
      selectSamplingRate samplers d o = d) ∧
    (∀ f r, r ≠ 1 → applySampledFlag f r = true) := by
  refine ⟨?_, ?_, ?_, ?_⟩
  · intro ho
    simp [selectSamplingRate, ho]
  · intro ho s hs
    subst ho
    simp [selectSamplingRate, hs]
  · intro ho hs
    subst ho
    simp [selectSamplingRate, hs]
  · intro f r hr
    simp [applySampledFlag, hr]

/-- Claim C4 witness: the three selection branches and the flag at concrete
inputs (overwrite 7 wins; a standard sampler of interval 100 is used; a
default of 5 is used; rate 100 asserts the flag). -/
theorem claim4_witness :
    selectSamplingRate [⟨-1, 2, 100⟩] 5 7 = 7 ∧
    selectSamplingRate [⟨-1, 2, 100⟩] 5 0 = 100 ∧
    selectSamplingRate [⟨3, 2, 100⟩] 5 0 = 5 ∧
    applySampledFlag false 100 = true := by
  refine ⟨?_, ?_, ?_, ?_⟩
  · exact (claim4_rate_selection [⟨-1, 2, 100⟩] 5 7).1 (by decide)
  · exact (claim4_rate_selection [⟨-1, 2, 100⟩] 5 0).2.1 rfl ⟨-1, 2, 100⟩ (by decide)
  · exact (claim4_rate_selection [⟨3, 2, 100⟩] 5 0).2.2.1 rfl (by decide)
  · exact (claim4_rate_selection [] 0 0).2.2.2 false 100 (by decide)

/-! ## Claim C6 -/

/-- Claim C6: withdrawing a template id that sits at the head of the
exporter's template list while other templates follow removes every
template (the C head case executes
`exporter->input_translation_table = NULL`, ipfix.c line 598, under the
comment "last table removed"), not only the requested one; the id = 2
withdraw-all path behaves as specified.  The spec says any id other than 2
removes only that template, so this is a slip in the code's linked-list
unlink. -/
theorem claim6_head_withdraw_drops_all :
    remove_translation_table [⟨256⟩, ⟨257⟩] 256 = [] ∧
    remove_translation_table [⟨255⟩, ⟨256⟩, ⟨257⟩] 256 = [⟨255⟩, ⟨257⟩] ∧
    withdrawTemplate [⟨256⟩, ⟨257⟩] 2 = ([], true) := by
  decide

/-! ## Claim C7 -/

/-- Claim C7, counterexample: a data flowset with id 300 for which the
exporter has no compiled template and no option descriptor with table id
300 is still processed as option data, because the exporter has a nonzero
SysUpOption length and `HasOptionTable` returns true for any table id in
that case (ipfix.c line 405); the claim requires the flowset be dropped. -/
theorem claim7_sysup_overrides_tableid :
    dispatchDataFlowset [] 8 [] 300 = FlowAction.optionData := by
  decide

/-- Claim C7 (amended): a flowset with id ≥ 256 and no compiled template is
processed as option data iff the exporter's SysUpTime option length is
nonzero or some sampler-option descriptor matches the flowset id;
otherwise it is dropped. -/
theorem claim7_dispatch (tids : List Nat) (sysUpLen : Nat) (opts : List Nat)
    (fsId : Nat) (hno : tids.contains fsId = false) :
    (dispatchDataFlowset tids sysUpLen opts fsId = FlowAction.optionData ↔
      (sysUpLen ≠ 0 ∨ fsId ∈ opts)) ∧
    (dispatchDataFlowset tids sysUpLen opts fsId = FlowAction.dropSet ↔
      (sysUpLen = 0 ∧ fsId ∉ opts)) := by
  have hmem : fsId ∉ tids := by simpa using hno
  unfold dispatchDataFlowset HasOptionTable
  by_cases hz : sysUpLen = 0
  · by_cases hm : fsId ∈ opts
    · have hf : ((opts.find? (fun t => t == fsId)).isSome = true) :=
        (findtab_isSome_iff opts fsId).mpr hm
      simp [hmem, hz, hf, hm]
    · have hf : ((opts.find? (fun t => t == fsId)).isSome) = false := by
        cases hb : (opts.find? (fun t => t == fsId)).isSome with
        | false => rfl
        | true => exact absurd ((findtab_isSome_iff opts fsId).mp hb) hm
      simp [hmem, hz, hf, hm]
  · simp [hmem, hz]

/-- Claim C7 witness: dispatch at concrete exporter states — a matching
descriptor gives option data, and with no SysUpTime option and no
matching descriptor the flowset is dropped. -/
theorem claim7_witness :
    dispatchDataFlowset [] 0 [300] 300 = FlowAction.optionData ∧
    dispatchDataFlowset [] 0 [301] 300 = FlowAction.dropSet := by
  constructor
  · exact (claim7_dispatch [] 0 [300] 300 rfl).1.mpr (Or.inr (by decide))
  · exact (claim7_dispatch [] 0 [301] 300 rfl).2.mpr ⟨rfl, by decide⟩

/-! ## Claim C8 -/

/-- Claim C8, counterexample: an ICMP record whose SAVE_ICMP step saved the
type/code value 0 (an echo reply, type 0 code 0, here read from zeroed
input bytes) keeps the ports written by the sequencer: the code tests
`table->icmpTypeCode` for nonzero (ipfix.c line 1951), so the claimed
overwrite (srcport = 0, dstport = saved value = 0) does not happen. -/
theorem claim8_zero_typecode_kept :
    (runSteps (fun _ => 0) 0 1 2
      [⟨.saveICMP, 0, IPFIX_icmpTypeCodeIPv4, 2, 0, .slotIcmpTypeCode⟩]
      0 (recordScratchInit {})).scr.icmpTypeCode = 0 ∧
    icmpPortFix 1 5 7
      (runSteps (fun _ => 0) 0 1 2
        [⟨.saveICMP, 0, IPFIX_icmpTypeCodeIPv4, 2, 0, .slotIcmpTypeCode⟩]
        0 (recordScratchInit {})).scr.icmpTypeCode = (5, 7) := by
  decide

/-- Claim C8 (amended): after the sequencer, a record with protocol 1 or 58
whose saved icmpTypeCode is nonzero gets srcport = 0 and dstport = the
saved value; any other protocol keeps the ports written by the sequencer
(and so does an ICMP record whose saved type/code is zero). -/
theorem claim8_icmp_ports (prot sp dp tc : Nat) :
    ((prot = 1 ∨ prot = 58) → tc ≠ 0 → tc < 65536 →
      icmpPortFix prot sp dp tc = (0, tc)) ∧
    (prot ≠ 1 → prot ≠ 58 → icmpPortFix prot sp dp tc = (sp, dp)) := by
  constructor
  · intro hp ht hlt
    simp [icmpPortFix, hp, ht, Nat.mod_eq_of_lt hlt]
  · intro h1 h58
    simp [icmpPortFix, h1, h58]

/-- Claim C8 witness: an ICMP record with saved type/code 0x0803 gets
ports (0, 0x0803); a TCP record (protocol 6) keeps its ports. -/
theorem claim8_witness :
    icmpPortFix 1 1234 80 2051 = (0, 2051) ∧
    icmpPortFix 6 1234 80 2051 = (1234, 80) := by
  constructor
  · exact (claim8_icmp_ports 1 1234 80 2051).1 (Or.inl rfl) (by decide) (by decide)
  · exact (claim8_icmp_ports 6 1234 80 2051).2 (by decide) (by decide)

/-! ## Claim C10 -/

/-- Claim C10: updating an existing sampler (first chain entry with the
same id) with changed mode or interval flushes the record before the
update — the flushed record still carries the previous mode and interval —
and only then stores the new values; when neither changed, no flush
happens and the chain is unchanged (`InsertSampler`, ipfix.c lines
1183-1199). -/
theorem claim10_sampler_update (l : List SamplerRec) (i : Int) (m v : Nat)
    (s0 : SamplerRec) (hfind : lookupSampler l i = some s0) :
    (¬ (m = s0.mode ∧ v = s0.interval) →
      (InsertSampler l i m v).2 = [s0] ∧
      lookupSampler (InsertSampler l i m v).1 i = some ⟨s0.id, m, v⟩) ∧
    ((m = s0.mode ∧ v = s0.interval) → InsertSampler l i m v = (l, [])) := by
  induction l with
  | nil => simp [lookupSampler] at hfind
  | cons s rest ih =>
    by_cases hs : s.id = i
    · have hs0 : s0 = s := by
        rw [lookupSampler, if_pos hs] at hfind
        injection hfind with h
        exact h.symm
      subst hs0
      constructor
      · intro hne
        rw [not_and_or] at hne
        constructor
        · simp [InsertSampler, hs, hne]
        · simp [InsertSampler, hs, hne, lookupSampler]
      · intro he
        simp [InsertSampler, hs, he.1.symm, he.2.symm]
    · have hfind' : lookupSampler rest i = some s0 := by
        rw [lookupSampler, if_neg hs] at hfind
        exact hfind
      have hrec := ih hfind'
      constructor
      · intro hne
        refine ⟨?_, ?_⟩
        · simp [InsertSampler, hs, (hrec.1 hne).1]
        · simp [InsertSampler, hs, lookupSampler, (hrec.1 hne).2]
      · intro he
        have h3 := hrec.2 he
        simp [InsertSampler, hs, h3]

/-- Claim C10 witness: a sampler chain [id 5, mode 1, interval 10] updated
to mode 2 / interval 100 flushes the OLD record and stores the new values;
re-sending the same values causes no flush and no change. -/
theorem claim10_witness :
    (InsertSampler [⟨5, 1, 10⟩] 5 2 100).2 = [⟨5, 1, 10⟩] ∧
    lookupSampler (InsertSampler [⟨5, 1, 10⟩] 5 2 100).1 5 = some ⟨5, 2, 100⟩ ∧
    InsertSampler [⟨5, 1, 10⟩] 5 1 10 = ([⟨5, 1, 10⟩], []) := by
  refine ⟨?_, ?_, ?_⟩
  · exact ((claim10_sampler_update [⟨5, 1, 10⟩] 5 2 100 ⟨5, 1, 10⟩
      (by decide)).1 (by decide)).1
  · exact ((claim10_sampler_update [⟨5, 1, 10⟩] 5 2 100 ⟨5, 1, 10⟩
      (by decide)).1 (by decide)).2
  · exact (claim10_sampler_update [⟨5, 1, 10⟩] 5 1 10 ⟨5, 1, 10⟩
      (by decide)).2 (by decide)

/-! ## Claim C9 -/

theorem changedScan_self : ∀ l : List Nat, changedScan l l false = false := by
  intro l
  induction l with
  | nil => rfl
  | cons x xs ih => simp [changedScan, ih]

/-- Claim C9: recompiling a template that is byte-identical to the one
already compiled and registered for the same template id leaves
extension_map_changed false (the refresh starts from the stored flag,
which is 0, and the elementwise comparison of the recomputed extension ids
against the stored ones finds no difference), so the extension map is not
re-registered downstream, and the resulting sequencer program is identical
step for step to the previous compilation. -/
theorem claim9_identical_refresh (enabled : Nat → Bool) (isV6exp : Bool)
    (fields : List TField) (t1 : TableRes)
    (h : templateAddFlow enabled isV6exp fields none = some t1) :
    templateAddFlow enabled isV6exp fields (some t1.exIds) =
      some ⟨t1.steps, t1.exIds, t1.outSize, false, false⟩ := by
  simp only [templateAddFlow] at h ⊢
  by_cases hg : (compilePrep enabled isV6exp fields).mp.numExt ≠ 0 ∧
      hasCommonField (compilePrep enabled isV6exp fields).order1 = true
  · rw [if_pos hg] at h ⊢
    rcases Option.map_eq_some'.mp h with ⟨st, hre, hf⟩
    rw [hre]
    subst hf
    simp [changedScan_self]
  · rw [if_neg hg] at h
    exact absurd h (by simp)

/-- Claim C9 witness: re-sending the plain two-field template after its
first (registered) compilation yields the same sequencer with
changed = false and no re-registration. -/
theorem claim9_witness :
    templateAddFlow enPlain false tmplPlain (some resPlain.exIds) =
      some ⟨resPlain.steps, resPlain.exIds, resPlain.outSize, false, false⟩ :=
  claim9_identical_refresh enPlain false tmplPlain resPlain (by decide)

/-! ## Claim C5: accounting lemmas -/

theorem wsum_nil : wsum [] = 0 := rfl

theorem wsum_cons (s : SeqStep) (l : List SeqStep) :
    wsum (s :: l) = s.input_length + s.skip_count + wsum l := by
  simp [wsum]

theorem stepTypes_nil : stepTypes [] = [] := rfl

theorem stepTypes_cons (s : SeqStep) (l : List SeqStep) :
    stepTypes (s :: l) = s.type :: stepTypes l := rfl

theorem knownTypes_cons_skip {e : OrderEntry} (l : List OrderEntry)
    (h : e.type = SKIP_ELEMENT) : knownTypes (e :: l) = knownTypes l := by
  simp [knownTypes, List.filter_cons, h]

theorem knownTypes_cons_known {e : OrderEntry} (l : List OrderEntry)
    (h : e.type ≠ SKIP_ELEMENT) :
    knownTypes (e :: l) = e.type :: knownTypes l := by
  simp [knownTypes, List.filter_cons, h]

theorem mem_knownTypes_of_mem {e : OrderEntry} {l : List OrderEntry}
    (he : e ∈ l) (h : e.type ≠ SKIP_ELEMENT) : e.type ∈ knownTypes l := by
  simp only [knownTypes, List.mem_map]
  exact ⟨e, List.mem_filter.mpr ⟨he, by simpa using h⟩, rfl⟩

theorem exists_of_mem_knownTypes {t : Nat} {l : List OrderEntry}
    (h : t ∈ knownTypes l) : ∃ e ∈ l, e.type = t ∧ e.type ≠ SKIP_ELEMENT := by
  simp only [knownTypes, List.mem_map] at h
  obtain ⟨e, hef, het⟩ := h
  have := List.mem_filter.mp hef
  exact ⟨e, this.1, het, by simpa using this.2⟩

/-! ### Sums over the slot array -/

theorem sumF_zero (f : Nat → Nat) : sumF f 0 = 0 := rfl

theorem sumF_succ (f : Nat → Nat) (c : Nat) :
    sumF f (c + 1) = sumF f c + f c := by
  simp [sumF, List.range_succ]

theorem sumF_congr {f g : Nat → Nat} :
    ∀ {c : Nat}, (∀ k, k < c → f k = g k) → sumF f c = sumF g c := by
  intro c
  induction c with
  | zero => intro _; rfl
  | succ m ih =>
    intro h
    rw [sumF_succ, sumF_succ, ih (fun k hk => h k (Nat.lt_succ_of_lt hk)),
      h m (Nat.lt_succ_self m)]

theorem single_le_sumF (f : Nat → Nat) :
    ∀ (c i : Nat), i < c → f i ≤ sumF f c := by
  intro c
  induction c with
  | zero => intro i h; exact absurd h (Nat.not_lt_zero i)
  | succ m ih =>
    intro i h
    rw [sumF_succ]
    by_cases hi : i < m
    · exact Nat.le_trans (ih i hi) (Nat.le_add_right _ _)
    · have him : i = m := by omega
      subst him
      exact Nat.le_add_left _ _

theorem arrSet_self (a : SeqArr) (i : Nat) (s : SeqStep) :
    arrSet a i s i = s := by
  simp [arrSet]

theorem arrSet_other (a : SeqArr) {i k : Nat} (s : SeqStep) (h : k ≠ i) :
    arrSet a i s k = a k := by
  simp [arrSet, h]

theorem shiftUp_out (a : SeqArr) {n cnt k : Nat} (h : ¬ (n < k ∧ k ≤ cnt)) :
    shiftUp a n cnt k = a k := by
  simp only [shiftUp]
  rw [if_neg h]

theorem shiftUp_mid (a : SeqArr) {n cnt k : Nat} (h1 : n < k) (h2 : k ≤ cnt) :
    shiftUp a n cnt k = a (k - 1) := by
  simp only [shiftUp]
  rw [if_pos ⟨h1, h2⟩]

theorem sumF_set (g : SeqStep → Nat) (a : SeqArr) (v : SeqStep) :
    ∀ (c i : Nat), i < c →
      sumF (fun k => g (arrSet a i v k)) c + g (a i) =
        sumF (fun k => g (a k)) c + g v := by
  intro c
  induction c with
  | zero => intro i h; exact absurd h (Nat.not_lt_zero i)
  | succ m ih =>
    intro i h
    rw [sumF_succ, sumF_succ]
    by_cases hi : i = m
    · subst hi
      have hcong : sumF (fun k => g (arrSet a i v k)) i =
          sumF (fun k => g (a k)) i :=
        sumF_congr (fun k hk => by rw [arrSet_other a v (Nat.ne_of_lt hk)])
      rw [hcong, arrSet_self]
      omega
    · have hi' : i < m := by omega
      have hih := ih i hi'
      rw [arrSet_other a v (Ne.symm hi)]
      omega

theorem sumF_swap (g : SeqStep → Nat) (a : SeqArr) (i j c : Nat)
    (hi : i < c) (hj : j < c) :
    sumF (fun k => g (arrSet (arrSet a i (a j)) j (a i) k)) c =
      sumF (fun k => g (a k)) c := by
  have he : arrSet a i (a j) j = a j := by
    by_cases h : j = i
    · rw [h, arrSet_self]
    · rw [arrSet_other a _ h]
  have h1 := sumF_set g (arrSet a i (a j)) (a i) c j hj
  have h2 := sumF_set g a (a j) c i hi
  rw [he] at h1
  omega

theorem sumF_insert (g : SeqStep → Nat) (a : SeqArr) (s : SeqStep) :
    ∀ (cnt n : Nat), n ≤ cnt →
      sumF (fun k => g (arrSet (shiftUp a n cnt) n s k)) (cnt + 1) =
        sumF (fun k => g (a k)) cnt + g s := by
  intro cnt
  induction cnt with
  | zero =>
    intro n hn
    have hn0 : n = 0 := Nat.le_zero.mp hn
    subst hn0
    rw [sumF_succ, sumF_zero, sumF_zero, arrSet_self]
  | succ m ih =>
    intro n hn
    rw [sumF_succ]
    by_cases hnm : n = m + 1
    · subst hnm
      have hcong : sumF
          (fun k => g (arrSet (shiftUp a (m + 1) (m + 1)) (m + 1) s k))
          (m + 1) = sumF (fun k => g (a k)) (m + 1) := by
        apply sumF_congr
        intro k hk
        rw [arrSet_other _ _ (Nat.ne_of_lt hk), shiftUp_out a (by omega)]
      rw [hcong, arrSet_self, sumF_succ]
    · have hn' : n ≤ m := by omega
      have hterm : arrSet (shiftUp a n (m + 1)) n s (m + 1) = a m := by
        rw [arrSet_other _ _ (by omega : m + 1 ≠ n),
          shiftUp_mid a (by omega) (Nat.le_refl (m + 1))]
        rfl
      have hcong : sumF
          (fun k => g (arrSet (shiftUp a n (m + 1)) n s k)) (m + 1) =
          sumF (fun k => g (arrSet (shiftUp a n m) n s k)) (m + 1) := by
        apply sumF_congr
        intro k hk
        by_cases hkn : k = n
        · rw [hkn, arrSet_self, arrSet_self]
        · rw [arrSet_other _ _ hkn, arrSet_other _ _ hkn]
          by_cases hmid : n < k
          · rw [shiftUp_mid a hmid (by omega), shiftUp_mid a hmid (by omega)]
          · rw [shiftUp_out a (by omega), shiftUp_out a (by omega)]
      rw [hterm, hcong, ih n hn', sumF_succ]
      omega

theorem wsumF_succ (a : SeqArr) (c : Nat) :
    wsumF a (c + 1) = wsumF a c + ((a c).input_length + (a c).skip_count) := by
  simpa [wsumF] using
    sumF_succ (fun k => (a k).input_length + (a k).skip_count) c

theorem wsumF_single_le (a : SeqArr) (c i : Nat) (h : i < c) :
    (a i).input_length + (a i).skip_count ≤ wsumF a c := by
  simpa [wsumF] using
    single_le_sumF (fun k => (a k).input_length + (a k).skip_count) c i h

theorem wsumF_set (a : SeqArr) (v : SeqStep) (c i : Nat) (h : i < c) :
    wsumF (arrSet a i v) c + ((a i).input_length + (a i).skip_count) =
      wsumF a c + (v.input_length + v.skip_count) := by
  simpa [wsumF] using
    sumF_set (fun s => s.input_length + s.skip_count) a v c i h

theorem wsumF_swap (a : SeqArr) (i j c : Nat) (hi : i < c) (hj : j < c) :
    wsumF (arrSet (arrSet a i (a j)) j (a i)) c = wsumF a c := by
  simpa [wsumF] using
    sumF_swap (fun s => s.input_length + s.skip_count) a i j c hi hj

theorem wsumF_insert (a : SeqArr) (s : SeqStep) (cnt n : Nat) (h : n ≤ cnt) :
    wsumF (arrSet (shiftUp a n cnt) n s) (cnt + 1) =
      wsumF a cnt + (s.input_length + s.skip_count) := by
  simpa [wsumF] using
    sumF_insert (fun x => x.input_length + x.skip_count) a s cnt n h

/-! ### The search loop -/

theorem findFrom_found (a : SeqArr) (cnt typ : Nat) :
    ∀ (fuel j : Nat), cnt ≤ j + fuel →
      (∃ i, j ≤ i ∧ i < cnt ∧ (a i).type = typ) →
      j ≤ findFrom a cnt typ fuel j ∧ findFrom a cnt typ fuel j < cnt ∧
        (a (findFrom a cnt typ fuel j)).type = typ := by
  intro fuel
  induction fuel with
  | zero =>
    intro j hle hex
    obtain ⟨i, hji, hic, _⟩ := hex
    omega
  | succ m ih =>
    intro j hle hex
    obtain ⟨i, hji, hic, hty⟩ := hex
    by_cases hc : (a j).type ≠ typ ∧ j < cnt
    · have hji' : j + 1 ≤ i := by
        rcases Nat.eq_or_lt_of_le hji with heq | hlt
        · exact absurd (heq ▸ hty) hc.1
        · exact hlt
      have hres := ih (j + 1) (by omega) ⟨i, hji', hic, hty⟩
      rw [findFrom, if_pos hc]
      exact ⟨by omega, hres.2.1, hres.2.2⟩
    · rw [findFrom, if_neg hc]
      have hjc : j < cnt := by omega
      have hty' : (a j).type = typ := by
        by_cases ht : (a j).type = typ
        · exact ht
        · exact absurd ⟨ht, hjc⟩ hc
      exact ⟨Nat.le_refl j, hjc, hty'⟩

/-! ### The zero-extended initial array -/

theorem range_map_getD (l : List SeqStep) :
    (List.range l.length).map (fun k => l.getD k zeroSlot) = l := by
  apply List.ext_getElem
  · simp
  · intro i h1 h2
    simp only [List.getElem_map, List.getElem_range]
    rw [List.getD_eq_getElem l zeroSlot h2]

theorem wsum_range_map (a : SeqArr) (c : Nat) :
    wsum ((List.range c).map a) = wsumF a c := by
  simp only [wsum, wsumF, sumF, List.map_map]
  rfl

theorem wsumF_init (l : List SeqStep) :
    wsumF (fun k => l.getD k zeroSlot) l.length = wsum l := by
  rw [← wsum_range_map, range_map_getD]

theorem mem_stepTypes_exists {t : Nat} {l : List SeqStep}
    (h : t ∈ stepTypes l) :
    ∃ j, j < l.length ∧ (l.getD j zeroSlot).type = t := by
  simp only [stepTypes, List.mem_map] at h
  obtain ⟨s, hs, hst⟩ := h
  obtain ⟨i, hi, hgi⟩ := List.mem_iff_getElem.mp hs
  refine ⟨i, hi, ?_⟩
  rw [List.getD_eq_getElem l zeroSlot hi, hgi, hst]

/-! ### Skip and known length sums of the input order -/

theorem skipLenSum_nil : skipLenSum [] = 0 := rfl

theorem skipLenSum_cons (e : OrderEntry) (l : List OrderEntry) :
    skipLenSum (e :: l) =
      (if e.type = SKIP_ELEMENT ∧ e.length ≠ DYN_FIELD_LENGTH then e.length
       else 0) + skipLenSum l := by
  simp [skipLenSum]

theorem knownLenSum_cons (e : OrderEntry) (l : List OrderEntry) :
    knownLenSum (e :: l) =
      (if e.type ≠ SKIP_ELEMENT then e.length else 0) + knownLenSum l := by
  simp [knownLenSum]

/-! ### Input accounting of the reorder loop -/

/-- When every known entry of the remaining input order still has a slot
of its type in the unplaced region [n, cnt), the known input types are
pairwise distinct, and the running total plus the remaining fixed skip
lengths stays below 2^16 (so no 16-bit skip counter wraps), the reorder
loop adds exactly the fixed skip lengths to the program's
(input_length + skip_count) total: matched entries only move slots around,
fixed skips are inserted or merged, and a dynamic skip inserts a
zero-count dyn_skip step. -/
theorem reorderLoop_wsum :
    ∀ (order : List OrderEntry) (a : SeqArr) (cnt n : Nat)
      (res : SeqArr × Nat),
      (knownTypes order).Nodup →
      (∀ e ∈ order, e.type ≠ SKIP_ELEMENT →
        ∃ j, n ≤ j ∧ j < cnt ∧ (a j).type = e.type) →
      n ≤ cnt →
      wsumF a cnt + skipLenSum order < 65536 →
      reorderLoop order a cnt n = some res →
      wsumF res.1 res.2 = wsumF a cnt + skipLenSum order := by
  intro order
  induction order with
  | nil =>
    intro a cnt n res _ _ _ _ h
    simp only [reorderLoop] at h
    injection h with h
    subst h
    rw [skipLenSum_nil]
    show wsumF a cnt = wsumF a cnt + 0
    omega
  | cons e rest ih =>
    intro a cnt n res hnd hmat hle hbound h
    simp only [reorderLoop] at h
    split at h
    next hskip =>
      have hnd' : (knownTypes rest).Nodup := by
        rwa [knownTypes_cons_skip _ hskip] at hnd
      have hmat' : ∀ e' ∈ rest, e'.type ≠ SKIP_ELEMENT →
          ∃ j, n ≤ j ∧ j < cnt ∧ (a j).type = e'.type :=
        fun e' he' hne => hmat e' (List.mem_cons_of_mem _ he') hne
      split at h
      next hins =>
        have hws : wsumF (arrSet (shiftUp a n cnt) n (insSkipSlot (a n) e.length))
            (cnt + 1) = wsumF a cnt +
              ((insSkipSlot (a n) e.length).input_length +
                (insSkipSlot (a n) e.length).skip_count) :=
          wsumF_insert a _ cnt n hle
        have hval : (insSkipSlot (a n) e.length).input_length +
            (insSkipSlot (a n) e.length).skip_count =
            (if e.type = SKIP_ELEMENT ∧ e.length ≠ DYN_FIELD_LENGTH
             then e.length else 0) := by
          unfold insSkipSlot
          by_cases hdyn : e.length = DYN_FIELD_LENGTH
          · rw [if_pos hdyn, if_neg (fun hc => hc.2 hdyn)]
            rfl
          · rw [if_neg hdyn, if_pos ⟨hskip, hdyn⟩]
            simp
        have hmat2 : ∀ e' ∈ rest, e'.type ≠ SKIP_ELEMENT →
            ∃ j, n + 1 ≤ j ∧ j < cnt + 1 ∧
              (arrSet (shiftUp a n cnt) n (insSkipSlot (a n) e.length) j).type =
                e'.type := by
          intro e' he' hne
          obtain ⟨j, hj1, hj2, hj3⟩ := hmat' e' he' hne
          refine ⟨j + 1, by omega, by omega, ?_⟩
          rw [arrSet_other _ _ (by omega : j + 1 ≠ n),
            shiftUp_mid a (by omega) (by omega)]
          exact hj3
        rw [skipLenSum_cons] at hbound ⊢
        have hrec := ih _ (cnt + 1) (n + 1) res hnd' hmat2 (by omega)
          (by rw [hws, hval]; omega) h
        rw [hrec, hws, hval]
        omega
      next hins =>
        have hn0 : n ≠ 0 := fun hc => hins (Or.inr hc)
        have hdyn : e.length ≠ DYN_FIELD_LENGTH := fun hc => hins (Or.inl hc)
        have hsk_le := wsumF_single_le a cnt (n - 1) (by omega)
        rw [skipLenSum_cons, if_pos ⟨hskip, hdyn⟩] at hbound ⊢
        have hnw : (a (n - 1)).skip_count + e.length < 65536 := by omega
        have hmod : ((a (n - 1)).skip_count + e.length) % 65536 =
            (a (n - 1)).skip_count + e.length := Nat.mod_eq_of_lt hnw
        have hws : wsumF (arrSet a (n - 1) (mergedSkip (a (n - 1)) e.length))
            cnt = wsumF a cnt + e.length := by
          have hst := wsumF_set a (mergedSkip (a (n - 1)) e.length) cnt (n - 1)
            (by omega)
          have hm1 : (mergedSkip (a (n - 1)) e.length).input_length =
              (a (n - 1)).input_length := rfl
          have hm2 : (mergedSkip (a (n - 1)) e.length).skip_count =
              (a (n - 1)).skip_count + e.length := by
            show ((a (n - 1)).skip_count + e.length) % 65536 = _
            exact hmod
          omega
        have hmat2 : ∀ e' ∈ rest, e'.type ≠ SKIP_ELEMENT →
            ∃ j, n ≤ j ∧ j < cnt ∧
              (arrSet a (n - 1) (mergedSkip (a (n - 1)) e.length) j).type =
                e'.type := by
          intro e' he' hne
          obtain ⟨j, hj1, hj2, hj3⟩ := hmat' e' he' hne
          refine ⟨j, hj1, hj2, ?_⟩
          rw [arrSet_other _ _ (by omega : j ≠ n - 1)]
          exact hj3
        have hrec := ih _ cnt n res hnd' hmat2 hle (by rw [hws]; omega) h
        rw [hrec, hws]
        omega
    next hskip =>
      have hkn : knownTypes (e :: rest) = e.type :: knownTypes rest :=
        knownTypes_cons_known _ hskip
      have hnd' : (knownTypes rest).Nodup := by
        rw [hkn] at hnd
        exact hnd.of_cons
      have hnotin : e.type ∉ knownTypes rest := by
        rw [hkn] at hnd
        exact (List.nodup_cons.mp hnd).1
      have hskl : skipLenSum (e :: rest) = skipLenSum rest := by
        rw [skipLenSum_cons, if_neg (fun hc => hskip hc.1), Nat.zero_add]
      obtain ⟨j0, hj01, hj02, hj03⟩ := hmat e (List.mem_cons_self _ _) hskip
      have hdiff : ∀ e' ∈ rest, e'.type ≠ SKIP_ELEMENT → e'.type ≠ e.type := by
        intro e' he' hne hc
        exact hnotin (hc ▸ mem_knownTypes_of_mem he' hne)
      rw [hskl] at hbound ⊢
      split at h
      next hhead =>
        have hmat2 : ∀ e' ∈ rest, e'.type ≠ SKIP_ELEMENT →
            ∃ j, n + 1 ≤ j ∧ j < cnt ∧ (a j).type = e'.type := by
          intro e' he' hne
          obtain ⟨j, hj1, hj2, hj3⟩ := hmat e' (List.mem_cons_of_mem _ he') hne
          have hjn : j ≠ n := by
            intro hc
            exact hdiff e' he' hne (by rw [← hj3, hc, hhead])
          exact ⟨j, by omega, hj2, hj3⟩
        exact ih a cnt (n + 1) res hnd' hmat2 (by omega) hbound h
      next hhead =>
        have hj0n : j0 ≠ n := fun hc => hhead (hc ▸ hj03)
        have hsearch := findFrom_found a cnt e.type (cnt + 1) (n + 1)
          (by omega) ⟨j0, by omega, hj02, hj03⟩
        obtain ⟨hr1, hr2, hr3⟩ := hsearch
        split at h
        next hfc =>
          rw [hfc] at hr2
          exact absurd hr2 (Nat.lt_irrefl cnt)
        next hfc =>
          have hws := wsumF_swap a n (findFrom a cnt e.type (cnt + 1) (n + 1))
            cnt (by omega) hr2
          have hmat2 : ∀ e' ∈ rest, e'.type ≠ SKIP_ELEMENT →
              ∃ j, n + 1 ≤ j ∧ j < cnt ∧
                (arrSet (arrSet a n (a (findFrom a cnt e.type (cnt + 1) (n + 1))))
                  (findFrom a cnt e.type (cnt + 1) (n + 1)) (a n) j).type =
                  e'.type := by
            intro e' he' hne
            obtain ⟨j, hj1, hj2, hj3⟩ := hmat e' (List.mem_cons_of_mem _ he') hne
            have hjr : j ≠ findFrom a cnt e.type (cnt + 1) (n + 1) := by
              intro hc
              exact hdiff e' he' hne (by rw [← hj3, hc, hr3])
            by_cases hjn : j = n
            · refine ⟨findFrom a cnt e.type (cnt + 1) (n + 1), by omega, hr2, ?_⟩
              rw [arrSet_self]
              exact hjn ▸ hj3
            · refine ⟨j, by omega, hj2, ?_⟩
              rw [arrSet_other _ _ hjr, arrSet_other _ _ hjn]
              exact hj3
          have hrec := ih _ cnt (n + 1) res hnd' hmat2 (by omega)
            (by rw [hws]; exact hbound) h
          rw [hrec, hws]

theorem tLenSum_nil (t : Nat) : tLenSum [] t = 0 := rfl

theorem tLenSum_cons (e : OrderEntry) (l : List OrderEntry) (t : Nat) :
    tLenSum (e :: l) t =
      (if e.type ≠ SKIP_ELEMENT ∧ e.type = t then e.length else 0) +
        tLenSum l t := by
  simp [tLenSum]

theorem tLenSum_zero_of_not_mem :
    ∀ {l : List OrderEntry} {t : Nat}, t ∉ knownTypes l → tLenSum l t = 0 := by
  intro l
  induction l with
  | nil => intro t _; rfl
  | cons e rest ih =>
    intro t ht
    rw [tLenSum_cons]
    by_cases hs : e.type = SKIP_ELEMENT
    · rw [knownTypes_cons_skip _ hs] at ht
      simp [hs, ih ht]
    · rw [knownTypes_cons_known _ hs] at ht
      have h1 : e.type ≠ t := fun hx =>
        ht (by rw [← hx]; exact List.mem_cons_self _ _)
      have h2 : t ∉ knownTypes rest := fun hx => ht (List.mem_cons_of_mem _ hx)
      simp [h1, ih h2]

theorem tLenSum_of_mem_nodup :
    ∀ {l : List OrderEntry} {e : OrderEntry},
      (knownTypes l).Nodup → e ∈ l → e.type ≠ SKIP_ELEMENT →
      tLenSum l e.type = e.length := by
  intro l
  induction l with
  | nil =>
    intro e _ he _
    simp at he
  | cons f rest ih =>
    intro e hnd he hes
    rw [tLenSum_cons]
    by_cases hf : f.type = SKIP_ELEMENT
    · have hef : e ≠ f := fun hx => hes (hx ▸ hf)
      have he' : e ∈ rest := by
        rcases List.mem_cons.mp he with h1 | h2
        · exact absurd h1 hef
        · exact h2
      rw [knownTypes_cons_skip _ hf] at hnd
      simp [hf, ih hnd he' hes]
    · rw [knownTypes_cons_known _ hf] at hnd
      have hnotin : f.type ∉ knownTypes rest := (List.nodup_cons.mp hnd).1
      by_cases hft : f.type = e.type
      · have htail : e.type ∉ knownTypes rest := hft ▸ hnotin
        have hef : e = f := by
          rcases List.mem_cons.mp he with h1 | h2
          · exact h1
          · exact absurd (mem_knownTypes_of_mem h2 hes) htail
        subst hef
        rw [if_pos ⟨hf, rfl⟩, tLenSum_zero_of_not_mem htail]
        omega
      · have he' : e ∈ rest := by
          rcases List.mem_cons.mp he with h1 | h2
          · exact absurd (by rw [h1]) hft
          · exact h2
        rw [if_neg (fun hc => hft hc.2)]
        rw [ih hnd.of_cons he' hes]
        omega

theorem matchedLenSum_cons (e : OrderEntry) (l : List OrderEntry)
    (ts : List Nat) :
    matchedLenSum (e :: l) ts =
      (if e.type ≠ SKIP_ELEMENT ∧ e.type ∈ ts then e.length else 0) +
        matchedLenSum l ts := by
  simp [matchedLenSum]

theorem matchedLenSum_nil_types : ∀ l : List OrderEntry,
    matchedLenSum l [] = 0 := by
  intro l
  induction l with
  | nil => rfl
  | cons e rest ih =>
    rw [matchedLenSum_cons, ih]
    simp

theorem matchedLenSum_cons_types :
    ∀ (l : List OrderEntry) (t : Nat) (ts : List Nat), t ∉ ts →
      matchedLenSum l (t :: ts) = tLenSum l t + matchedLenSum l ts := by
  intro l
  induction l with
  | nil => intro t ts _; rfl
  | cons e rest ih =>
    intro t ts ht
    rw [matchedLenSum_cons, matchedLenSum_cons, tLenSum_cons, ih t ts ht]
    by_cases hs : e.type = SKIP_ELEMENT
    · simp [hs]
    · by_cases het : e.type = t
      · have hm : e.type ∈ t :: ts := by
          rw [het]
          exact List.mem_cons_self _ _
        have hnm : e.type ∉ ts := by
          rw [het]
          exact ht
        rw [if_pos ⟨hs, hm⟩, if_pos ⟨hs, het⟩, if_neg (fun hc => hnm hc.2)]
        omega
      · by_cases hts : e.type ∈ ts
        · rw [if_pos ⟨hs, List.mem_cons_of_mem _ hts⟩,
            if_neg (fun hc => het hc.2), if_pos ⟨hs, hts⟩]
          omega
        · have hno : e.type ∉ t :: ts := by
            intro hx
            rcases List.mem_cons.mp hx with h1 | h2
            · exact het h1
            · exact hts h2
          rw [if_neg (fun hc => hno hc.2), if_neg (fun hc => het hc.2),
            if_neg (fun hc => hts hc.2)]
          omega

/-! ### Matched and known length sums coincide when every known entry has
a step -/

theorem matchedLenSum_eq_knownLenSum :
    ∀ (l : List OrderEntry) (ts : List Nat),
      (∀ e ∈ l, e.type ≠ SKIP_ELEMENT → e.type ∈ ts) →
      matchedLenSum l ts = knownLenSum l := by
  intro l
  induction l with
  | nil => intro ts _; rfl
  | cons e rest ih =>
    intro ts hall
    rw [matchedLenSum_cons, knownLenSum_cons,
      ih ts (fun x hx => hall x (List.mem_cons_of_mem _ hx))]
    by_cases hs : e.type = SKIP_ELEMENT
    · rw [if_neg (fun hc => hc.1 hs), if_neg (fun hc => hc hs)]
    · rw [if_pos ⟨hs, hall e (List.mem_cons_self _ _) hs⟩, if_pos hs]

theorem orderTotalLen_split :
    ∀ (l : List OrderEntry), (∀ e ∈ l, e.length ≠ DYN_FIELD_LENGTH) →
      orderTotalLen l = knownLenSum l + skipLenSum l := by
  intro l
  induction l with
  | nil => intro _; rfl
  | cons e rest ih =>
    intro hdyn
    have hd := hdyn e (List.mem_cons_self _ _)
    have ih' := ih (fun x hx => hdyn x (List.mem_cons_of_mem _ hx))
    simp only [orderTotalLen, List.map_cons, List.sum_cons] at ih' ⊢
    rw [knownLenSum_cons, skipLenSum_cons]
    by_cases hs : e.type = SKIP_ELEMENT
    · rw [if_neg (fun hc => hc hs), if_pos ⟨hs, hd⟩]
      omega
    · rw [if_pos hs, if_neg (fun hc => hs hc.1)]
      omega

/-- The pre-reorder sequencer consumes exactly the lengths of the announced
fields its steps were compiled from: under the distinctness and
length-agreement hypotheses the sum of the step input lengths equals the
summed lengths of the input-order entries whose type some step carries. -/
theorem wsum_eq_matchedLenSum :
    ∀ (steps : List SeqStep) (order : List OrderEntry),
      (stepTypes steps).Nodup →
      (∀ s ∈ steps, s.skip_count = 0) →
      (∀ s ∈ steps, s.type ≠ SKIP_ELEMENT) →
      (∀ s ∈ steps, ∀ e ∈ order, e.type = s.type → s.input_length = e.length) →
      (∀ s ∈ steps, s.input_length ≠ 0 → s.type ∈ knownTypes order) →
      (knownTypes order).Nodup →
      wsum steps = matchedLenSum order (stepTypes steps) := by
  intro steps
  induction steps with
  | nil =>
    intro order _ _ _ _ _ _
    rw [wsum_nil, stepTypes_nil, matchedLenSum_nil_types]
  | cons s rest ih =>
    intro order hnd hsk hnz hlen hmem hndo
    have hns : s.type ∉ stepTypes rest := by
      rw [stepTypes_cons] at hnd
      exact (List.nodup_cons.mp hnd).1
    rw [wsum_cons, stepTypes_cons,
      matchedLenSum_cons_types order s.type (stepTypes rest) hns]
    have hrest := ih order
      (by rw [stepTypes_cons] at hnd; exact hnd.of_cons)
      (fun x hx => hsk x (List.mem_cons_of_mem _ hx))
      (fun x hx => hnz x (List.mem_cons_of_mem _ hx))
      (fun x hx => hlen x (List.mem_cons_of_mem _ hx))
      (fun x hx => hmem x (List.mem_cons_of_mem _ hx)) hndo
    rw [hrest, hsk s (List.mem_cons_self _ _)]
    have hgoal : s.input_length = tLenSum order s.type := by
      by_cases hz : s.input_length = 0
      · rw [hz]
        by_cases hm : s.type ∈ knownTypes order
        · obtain ⟨e, he, hte, hnsk⟩ := exists_of_mem_knownTypes hm
          have hle := hlen s (List.mem_cons_self _ _) e he hte
          have ht := tLenSum_of_mem_nodup hndo he hnsk
          rw [← hte, ht]
          omega
        · rw [tLenSum_zero_of_not_mem hm]
      · have hm := hmem s (List.mem_cons_self _ _) hz
        obtain ⟨e, he, hte, hnsk⟩ := exists_of_mem_knownTypes hm
        have hle := hlen s (List.mem_cons_self _ _) e he hte
        have ht := tLenSum_of_mem_nodup hndo he hnsk
        rw [← hte, ht, hle]
    omega

theorem compactGo_totalLen :
    ∀ (fuel : Nat) (l : List OrderEntry), orderTotalLen l < 65536 →
      orderTotalLen (compactGo fuel l) = orderTotalLen l := by
  intro fuel
  induction fuel with
  | zero =>
    intro l _
    rcases l with _ | ⟨e1, _ | ⟨e2, r⟩⟩ <;> rfl
  | succ f ih =>
    intro l hb
    rcases l with _ | ⟨e1, _ | ⟨e2, r⟩⟩
    · rfl
    · rfl
    · by_cases hc : e1.type = SKIP_ELEMENT ∧ e1.length ≠ DYN_FIELD_LENGTH ∧
          e2.type = SKIP_ELEMENT ∧ e2.length ≠ DYN_FIELD_LENGTH
      · simp only [compactGo, if_pos hc]
        have hsum : orderTotalLen (e1 :: e2 :: r) =
            e1.length + e2.length + orderTotalLen r := by
          simp only [orderTotalLen, List.map_cons, List.sum_cons]
          omega
        have hmod : (e1.length + e2.length) % 65536 = e1.length + e2.length :=
          Nat.mod_eq_of_lt (by omega)
        have hlist : orderTotalLen
            ((⟨SKIP_ELEMENT, (e1.length + e2.length) % 65536⟩ : OrderEntry)
              :: r) = orderTotalLen (e1 :: e2 :: r) := by
          simp only [orderTotalLen, List.map_cons, List.sum_cons]
          rw [hmod]
          omega
        rw [ih _ (by rw [hlist]; exact hb), hlist]
      · simp only [compactGo, if_neg hc]
        have hb2 : orderTotalLen (e2 :: r) < 65536 := by
          simp only [orderTotalLen, List.map_cons, List.sum_cons] at hb ⊢
          omega
        have hrec := ih (e2 :: r) hb2
        simp only [orderTotalLen, List.map_cons, List.sum_cons] at hrec ⊢
        omega

theorem compact_totalLen (l : List OrderEntry)
    (hb : orderTotalLen l < 65536) :
    orderTotalLen (compact_input_order l) = orderTotalLen l :=
  compactGo_totalLen l.length l hb

theorem MapElement_entry_length (lk : Lookup) (T L E : Nat) :
    ((MapElement lk T L E).2.1).length = L := by
  unfold MapElement
  split
  · rfl
  · split
    · rfl
    · dsimp only
      split <;> rfl

theorem mapStep_order (enabled : Nat → Bool) (st : MapOut) (f : TField) :
    ∃ e : OrderEntry, (mapStep enabled st f).order = st.order ++ [e] ∧
      e.length = f.length := by
  refine ⟨(MapElement st.lk f.type f.length f.enterprise).2.1, ?_,
    MapElement_entry_length _ _ _ _⟩
  simp only [mapStep]
  split
  · split <;> rfl
  · rfl

theorem mapPhase_order_lengths_go (enabled : Nat → Bool) :
    ∀ (fields : List TField) (st : MapOut),
      ((fields.foldl (mapStep enabled) st).order.map (fun e => e.length)) =
        st.order.map (fun e => e.length) ++ fields.map (fun f => f.length) := by
  intro fields
  induction fields with
  | nil =>
    intro st
    simp
  | cons f fs ih =>
    intro st
    rw [List.foldl_cons, ih]
    obtain ⟨e, he, hlen⟩ := mapStep_order enabled st f
    rw [he]
    simp [hlen]

theorem mapPhase_order_lengths (enabled : Nat → Bool) (fields : List TField) :
    ((mapPhase enabled fields).order.map (fun e => e.length)) =
      fields.map (fun f => f.length) := by
  unfold mapPhase
  rw [mapPhase_order_lengths_go]
  simp

/-- Claim C5, counterexample: the fixed-length template `tmplDup`, which
announces octetDeltaCount twice (4 bytes, then 8 bytes) and
protocolIdentifier, is accepted by the compiler (compile and reorder
succeed), but the final sequencer's sum of (input_length + skip_count) is
17 while the declared on-wire record length is 4 + 8 + 1 = 13: the second
occurrence overwrites the cached length, the single compiled
octetDeltaCount step consumes 8 bytes for the 4-byte wire field, and the
unmatched second occurrence is merged as another 8-byte skip. -/
theorem claim5_dup_template_breaks_sum :
    (templateAddFlow enPlain false tmplDup none).isSome = true ∧
    (∀ f ∈ tmplDup, f.length ≠ DYN_FIELD_LENGTH) ∧
    ((templateAddFlow enPlain false tmplDup none).map
      (fun t => wsum t.steps)).getD 0 = 17 ∧
    (tmplDup.map (fun f => f.length)).sum = 13 := by
  decide

/-- The silent field drop of the reorder pass (lines 772-795 with n equal
to the sequence count): `tmplMand13` announces the twelve elements whose
compiled sequencer steps it gets, plus an 8-byte postOctetDeltaCount whose
extension is disabled, so the mapped input order carries a thirteenth
known entry with no matching step.  The template is accepted, the twelve
steps are matched first, and when the last entry arrives the search
starts past the count, returns n + 1 which differs from the count, the
must-never-happen guard is skipped, two zeroed slots beyond the program
are swapped and the field is dropped: the final sequencer consumes 26 of
the declared 34 bytes. -/
theorem reorder_drops_unmatched_tail_entry :
    (templateAddFlow enPlain false tmplMand13 none).isSome = true ∧
    ((templateAddFlow enPlain false tmplMand13 none).map
      (fun t => wsum t.steps)).getD 0 = 26 ∧
    (tmplMand13.map (fun f => f.length)).sum = 34 := by
  decide

/-- Claim C5 (amended): for every template without dynamic-length fields
that the compiler accepts, provided additionally that the mapped known
input types are pairwise distinct (no element id announced twice after
reverse mapping), the compiled pre-reorder steps carry pairwise-distinct
nonzero element types with zero skip counts and input lengths agreeing
with the announced field lengths (which rules out repeating an element id
with different widths and mixing 2-byte and 4-byte interface or AS
elements, cases in which the compiler pushes duplicate or mismatched
steps), every nonzero-length step's type is announced, every known
input-order entry has a matching compiled step (otherwise the reorder
pass silently drops the field and the sum falls short of the declared
length), and the declared record length stays below 2^16 (so no 16-bit
skip counter wraps), the sum over all steps of the final reordered
sequencer of (input_length + skip_count) equals the template's declared
on-wire record length, the sum of the announced field lengths. -/
theorem claim5_sequencer_length (enabled : Nat → Bool) (isV6exp : Bool)
    (fields : List TField) (t : TableRes)
    (hacc : templateAddFlow enabled isV6exp fields none = some t)
    (hdyn : ∀ e ∈ (compilePrep enabled isV6exp fields).order1,
      e.length ≠ DYN_FIELD_LENGTH)
    (hnk : (knownTypes (compilePrep enabled isV6exp fields).order1).Nodup)
    (hns : (stepTypes (compilePrep enabled isV6exp fields).build.steps).Nodup)
    (hsk : ∀ s ∈ (compilePrep enabled isV6exp fields).build.steps,
      s.skip_count = 0)
    (hsz : ∀ s ∈ (compilePrep enabled isV6exp fields).build.steps,
      s.type ≠ SKIP_ELEMENT)
    (hlen : ∀ s ∈ (compilePrep enabled isV6exp fields).build.steps,
      ∀ e ∈ (compilePrep enabled isV6exp fields).order1,
        e.type = s.type → s.input_length = e.length)
    (hmm : ∀ s ∈ (compilePrep enabled isV6exp fields).build.steps,
      s.input_length ≠ 0 →
        s.type ∈ knownTypes (compilePrep enabled isV6exp fields).order1)
    (hall : ∀ e ∈ (compilePrep enabled isV6exp fields).order1,
      e.type ≠ SKIP_ELEMENT →
        e.type ∈ stepTypes (compilePrep enabled isV6exp fields).build.steps)
    (htot : (fields.map (fun f => f.length)).sum < 65536) :
    wsum t.steps = (fields.map (fun f => f.length)).sum := by
  simp only [templateAddFlow] at hacc
  by_cases hg : (compilePrep enabled isV6exp fields).mp.numExt ≠ 0 ∧
      hasCommonField (compilePrep enabled isV6exp fields).order1 = true
  · rw [if_pos hg] at hacc
    rcases Option.map_eq_some'.mp hacc with ⟨st, hre, hf⟩
    subst hf
    simp only [reorder_sequencer] at hre
    rcases Option.map_eq_some'.mp hre with ⟨res, hloop, hst⟩
    have hst' : (List.range res.2).map res.1 = st := hst
    have hbnd : orderTotalLen (mapPhase enabled fields).order < 65536 := by
      simp only [orderTotalLen]
      rw [mapPhase_order_lengths]
      exact htot
    have horder : orderTotalLen (compilePrep enabled isV6exp fields).order1 =
        (fields.map (fun f => f.length)).sum := by
      show orderTotalLen (compact_input_order (mapPhase enabled fields).order) =
        _
      rw [compact_totalLen _ hbnd]
      simp only [orderTotalLen]
      rw [mapPhase_order_lengths]
    have hsteps : wsum (compilePrep enabled isV6exp fields).build.steps =
        knownLenSum (compilePrep enabled isV6exp fields).order1 := by
      rw [wsum_eq_matchedLenSum _ _ hns hsk hsz hlen hmm hnk,
        matchedLenSum_eq_knownLenSum _ _ hall]
    have hsplit := orderTotalLen_split _ hdyn
    have hinit := wsumF_init (compilePrep enabled isV6exp fields).build.steps
    have hmat : ∀ e ∈ (compilePrep enabled isV6exp fields).order1,
        e.type ≠ SKIP_ELEMENT →
        ∃ j, 0 ≤ j ∧
          j < (compilePrep enabled isV6exp fields).build.steps.length ∧
          (((compilePrep enabled isV6exp fields).build.steps).getD j
            zeroSlot).type = e.type := by
      intro e he hne
      obtain ⟨j, hj1, hj2⟩ := mem_stepTypes_exists (hall e he hne)
      exact ⟨j, Nat.zero_le _, hj1, hj2⟩
    have hloopw := reorderLoop_wsum (compilePrep enabled isV6exp fields).order1
      _ _ 0 res hnk hmat (Nat.zero_le _) (by rw [hinit, hsteps]; omega) hloop
    show wsum st = _
    rw [← hst', wsum_range_map, hloopw, hinit, hsteps]
    omega
  · rw [if_neg hg] at hacc
    exact absurd hacc (by simp)

/-- Claim C5 witness: the plain template (protocolIdentifier 1 byte,
octetDeltaCount 4 bytes) satisfies every hypothesis, and its reordered
sequencer consumes exactly the declared 5 bytes. -/
theorem claim5_witness :
    wsum resPlain.steps = (tmplPlain.map (fun f => f.length)).sum :=
  claim5_sequencer_length enPlain false tmplPlain resPlain (by decide)
    (by decide) (by decide) (by decide) (by decide) (by decide) (by decide)
    (by decide) (by decide) (by decide)

end Ipfix
